import Mathlib

/-!
# banzai-cli: the integrated-service activate / update workflow

A shallow embedding of

* `internal/cli/command/cluster/integratedservice/services/activate.go`
* `internal/cli/command/cluster/integratedservice/services/update.go`
* the response handling of the generated operations in
  `.gen/pipeline/api_clustergroup_deployments.go`

Go functions that talk to the operator, the file system or the network are
embedded as functions of the answers they receive (`World`), and they return
the list of calls they made (`Event`) next to their Go result.
-/

namespace BanzaiCli

/-! ## Errors -/

/-- A Go `error` value, represented by its message. -/
abbrev GoError := String

/-- The function `errors.WrapIf(err, msg)`: nil stays nil, anything else is wrapped. -/
def wrapIf (err : Option GoError) (msg : String) : Option GoError :=
  match err with
  | none => none
  | some e => some (msg ++ ": " ++ e)

/-! ## JSON documents -/

/-- A JSON value as it stands in a text. A number is a decimal literal: `number n` is the
integer `n`, `decimal m k` is `m / 10 ^ k`, `negZero` is a literal `-0`. An `object`
holds its members in order and may repeat a key. -/
inductive JValue where
  | null
  | bool (b : Bool)
  | number (n : Int)
  | decimal (m : Int) (k : Nat)
  | negZero
  | string (s : String)
  | array (xs : List JValue)
  | object (ms : List (String × JValue))
deriving Repr, Inhabited

/-- A Go value held in an `interface{}`. The first eight kinds are the ones
`encoding/json` itself stores there: nil, `bool`, `float64` (`number n` has the integer
value `n`, `decimal m k` the value `m / 10 ^ k`, `negZero` is the negative zero),
`string`, `[]interface{}` and `map[string]interface{}` (an association list with
distinct keys). The others are what a builder may store besides: `int n` is a value of
a Go integer type, `typed v` a value of any other Go type (a struct, a typed slice or
map, a named type) whose JSON form is that of `v`, `unsupported` a value without a JSON
form (NaN, an infinity, a channel, a function). -/
inductive GoValue where
  | null
  | bool (b : Bool)
  | number (n : Int)
  | decimal (m : Int) (k : Nat)
  | negZero
  | string (s : String)
  | array (xs : List GoValue)
  | object (ms : List (String × GoValue))
  | int (n : Int)
  | typed (v : GoValue)
  | unsupported
deriving Repr, Inhabited

/-! ### Numbers: `strconv.ParseFloat` and `strconv.FormatFloat` -/

/-- The number of halvings that bring `n` below 2, at most `fuel`. -/
def log2Fuel : Nat → Nat → Nat
  | 0, _ => 0
  | fuel + 1, n => if n < 2 then 0 else 1 + log2Fuel fuel (n / 2)

/-- The integer part of the binary logarithm of a positive `n`. -/
def bitLog (n : Nat) : Nat :=
  log2Fuel n n

/-- The integer part of the binary logarithm of `num / den`, both positive. -/
def floorLog2 (num den : Nat) : Int :=
  let l : Int := (bitLog num : Int) - (bitLog den : Int)
  if 0 ≤ l then (if den * 2 ^ l.toNat ≤ num then l else l - 1)
  else (if den ≤ num * 2 ^ (-l).toNat then l else l - 1)

/-- The integer nearest to `n / d`, a tie going to the even one. -/
def roundHalfEven (n d : Nat) : Nat :=
  let q := n / d
  let r := n % d
  if d < 2 * r ∨ (2 * r = d ∧ q % 2 = 1) then q + 1 else q

/-- The float64 nearest to `num / den` (ties to even), as mantissa and binary exponent
`(m, e)` of value `m * 2 ^ e`, with `m < 2 ^ 53` and `-1074 ≤ e ≤ 971`, normalised
(`2 ^ 52 ≤ m` unless `e = -1074`); `none` when the value is out of the range of
float64. -/
def roundFloat64 (num den : Nat) : Option (Nat × Int) :=
  if num = 0 then some (0, -1074)
  else
    let e : Int := max (floorLog2 num den - 52) (-1074)
    let m := if 0 ≤ e then roundHalfEven num (den * 2 ^ e.toNat)
             else roundHalfEven (num * 2 ^ (-e).toNat) den
    let me : Nat × Int := if m = 2 ^ 53 then (2 ^ 52, e + 1) else (m, e)
    if 971 < me.2 then none else some me

/-- The number of times 2 divides `m`, at most `fuel`. -/
def twoAdic : Nat → Nat → Nat
  | 0, _ => 0
  | fuel + 1, m => if m % 2 = 0 then 1 + twoAdic fuel (m / 2) else 0

/-- The value `m * 2 ^ e` as a decimal `(c, k)`, that is `c / 10 ^ k`, with the least
`k`. -/
def floatDecimal (m : Nat) (e : Int) : Nat × Nat :=
  if 0 ≤ e then (m * 2 ^ e.toNat, 0)
  else
    let j := (-e).toNat
    let t := twoAdic j m
    (m / 2 ^ t * 5 ^ (j - t), j - t)

/-- The float64 with sign `neg` and absolute value `c / 10 ^ k`, as a Go value. -/
def floatValue (neg : Bool) (ck : Nat × Nat) : GoValue :=
  if ck.1 = 0 then (if neg then .negZero else .number 0)
  else if ck.2 = 0 then .number (if neg then -(ck.1 : Int) else ck.1)
  else .decimal (if neg then -(ck.1 : Int) else ck.1) ck.2

/-- What decides the float64 a decimal literal `c / 10 ^ k` is read as: its sign and the
float64 nearest to its absolute value. -/
def numberKey (c : Int) (k : Nat) : Bool × Option (Nat × Int) :=
  (decide (c < 0), roundFloat64 c.natAbs (10 ^ k))

/-- The decoding of the decimal literal `c / 10 ^ k` into an `interface{}`:
`strconv.ParseFloat(s, 64)`, the nearest float64, an error when it is out of range. -/
def decodeNumber (c : Int) (k : Nat) : Except GoError GoValue :=
  match numberKey c k with
  | (_, none) => .error "json: cannot unmarshal number into Go value of type float64"
  | (neg, some (m, e)) => .ok (floatValue neg (floatDecimal m e))

/-- The number of divisions by 10 that bring `n` below 10, at most `fuel`. -/
def log10Fuel : Nat → Nat → Nat
  | 0, _ => 0
  | fuel + 1, n => if n < 10 then 0 else 1 + log10Fuel fuel (n / 10)

/-- The integer part of the decimal logarithm of `num / den`, both positive. -/
def floorLog10 (num den : Nat) : Int :=
  let l : Int := (log10Fuel num num : Int) - (log10Fuel den den : Int)
  if 0 ≤ l then (if den * 10 ^ l.toNat ≤ num then l else l - 1)
  else (if den ≤ num * 10 ^ (-l).toNat then l else l - 1)

/-- The decimal `c / 10 ^ k` without trailing zeros after the point. -/
def stripZeros : Nat → Nat → Nat × Nat
  | c, 0 => (c, 0)
  | c, k + 1 => if c % 10 = 0 then stripZeros (c / 10) k else (c, k + 1)

/-- The decimal of value `x * 10 ^ p`, with sign `neg`. -/
def candidate (neg : Bool) (x : Nat) (p : Int) : Int × Nat :=
  let ck : Nat × Nat := if 0 ≤ p then (x * 10 ^ p.toNat, 0) else stripZeros x (-p).toNat
  (if neg then -(ck.1 : Int) else ck.1, ck.2)

/-- The choice among the two decimals `lo` and `hi` that enclose a value: when both
read back as the float64 `key` the nearer is taken (`below`: the value is nearer to
`lo`, `above`: nearer to `hi`, else `even` tells whether `lo` ends in an even digit),
when one does, that one, when none does, none. -/
def pickNearest (key : Bool × Option (Nat × Int)) (lo hi : Int × Nat)
    (below above even : Bool) : Option (Int × Nat) :=
  if numberKey lo.1 lo.2 = key ∧ numberKey hi.1 hi.2 = key then
    (if below then some lo else if above then some hi else if even then some lo else some hi)
  else if numberKey lo.1 lo.2 = key then some lo
  else if numberKey hi.1 hi.2 = key then some hi
  else none

/-- The search of `strconv.FormatFloat(f, fmt, -1, 64)` for the shortest decimal that
reads back as the same float64, from `nd` digits on: with `nd` digits the value
`num / den` is cut below and above; `pickNearest` chooses among the two, and when none
reads back as the float64 the search goes on with one digit more. `l10` is the integer
part of the decimal logarithm of the value. -/
def shortestAux (neg : Bool) (num den : Nat) (key : Bool × Option (Nat × Int)) (l10 : Int) :
    Nat → Nat → Option (Int × Nat)
  | 0, _ => none
  | fuel + 1, nd =>
    let p : Int := l10 - ((nd : Int) - 1)
    let n' := if 0 ≤ p then num else num * 10 ^ (-p).toNat
    let d' := if 0 ≤ p then den * 10 ^ p.toNat else den
    match pickNearest key (candidate neg (n' / d') p) (candidate neg (n' / d' + 1) p)
        (decide (2 * (n' % d') < d')) (decide (d' < 2 * (n' % d')))
        (decide ((n' / d') % 2 = 0)) with
    | some r => some r
    | none => shortestAux neg num den key l10 fuel (nd + 1)

/-- The decimal `encoding/json` writes for the float64 of value `c / 10 ^ k`: the
shortest one that reads back as this float64 (17 digits always do). -/
def encodeFloat (c : Int) (k : Nat) : Int × Nat :=
  if c = 0 then (0, 0)
  else
    match shortestAux (decide (c < 0)) c.natAbs (10 ^ k) (numberKey c k)
        (floorLog10 c.natAbs (10 ^ k)) 17 1 with
    | some r => r
    | none => (c, k)

/-- The literal of the decimal `c / 10 ^ k`. -/
def numberToken (ck : Int × Nat) : JValue :=
  if ck.2 = 0 then .number ck.1 else .decimal ck.1 ck.2

/-! ### Decoding into an `interface{}` -/

/-- The Go assignment `m[k] = v` on a map kept as an association list with distinct keys. -/
def mapInsert (k : String) (v : GoValue) : List (String × GoValue) → List (String × GoValue)
  | [] => [(k, v)]
  | (k', v') :: rest => if k' = k then (k, v) :: rest else (k', v') :: mapInsert k v rest

mutual
/-- The value `encoding/json` builds in an `interface{}` for a JSON value: a number
becomes the nearest float64 (an error when out of range), arrays become slices
elementwise, objects become maps, a repeated key keeping its last value. -/
def JValue.toGo : JValue → Except GoError GoValue
  | .null => .ok .null
  | .bool b => .ok (.bool b)
  | .number n => decodeNumber n 0
  | .decimal m k => decodeNumber m k
  | .negZero => .ok .negZero
  | .string s => .ok (.string s)
  | .array xs =>
    match toGoList xs with
    | .ok ys => .ok (.array ys)
    | .error e => .error e
  | .object ms =>
    match toGoMembers [] ms with
    | .ok m => .ok (.object m)
    | .error e => .error e
/-- Elementwise `JValue.toGo`. -/
def toGoList : List JValue → Except GoError (List GoValue)
  | [] => .ok []
  | x :: xs =>
    match x.toGo with
    | .error e => .error e
    | .ok y =>
      match toGoList xs with
      | .ok ys => .ok (y :: ys)
      | .error e => .error e
/-- Decoding of the members of a JSON object into the map `acc`, left to right:
`acc[k] = toGo v` for each member. -/
def toGoMembers (acc : List (String × GoValue)) :
    List (String × JValue) → Except GoError (List (String × GoValue))
  | [] => .ok acc
  | (k, v) :: ms =>
    match v.toGo with
    | .error e => .error e
    | .ok g => toGoMembers (mapInsert k g acc) ms
end

/-! ### Encoding -/

mutual
/-- The JSON value `encoding/json` writes for a Go value; an error for a value without
a JSON form. -/
def GoValue.toJSON : GoValue → Except GoError JValue
  | .null => .ok .null
  | .bool b => .ok (.bool b)
  | .number n => .ok (numberToken (encodeFloat n 0))
  | .decimal m k => .ok (numberToken (encodeFloat m k))
  | .negZero => .ok .negZero
  | .string s => .ok (.string s)
  | .array xs =>
    match toJSONList xs with
    | .ok ys => .ok (.array ys)
    | .error e => .error e
  | .object ms =>
    match toJSONMembers ms with
    | .ok js => .ok (.object js)
    | .error e => .error e
  | .int n => .ok (.number n)
  | .typed v => v.toJSON
  | .unsupported => .error "json: unsupported value"
/-- Elementwise `GoValue.toJSON`. -/
def toJSONList : List GoValue → Except GoError (List JValue)
  | [] => .ok []
  | x :: xs =>
    match x.toJSON with
    | .error e => .error e
    | .ok y =>
      match toJSONList xs with
      | .ok ys => .ok (y :: ys)
      | .error e => .error e
/-- The members `encoding/json` writes for the entries of a map. -/
def toJSONMembers : List (String × GoValue) → Except GoError (List (String × JValue))
  | [] => .ok []
  | (k, v) :: ms =>
    match v.toJSON with
    | .error e => .error e
    | .ok j =>
      match toJSONMembers ms with
      | .ok js => .ok ((k, j) :: js)
      | .error e => .error e
end

mutual
/-- A value of the kinds `encoding/json` itself stores in an `interface{}`: a number is
a float64 (reading its own decimal gives it back), the keys of every map are distinct,
and no `int`, `typed` or `unsupported` value occurs. -/
def GoValue.WF : GoValue → Prop
  | .null => True
  | .bool _ => True
  | .number n => decodeNumber n 0 = .ok (.number n)
  | .decimal m k => decodeNumber m k = .ok (.decimal m k)
  | .negZero => True
  | .string _ => True
  | .array xs => WFList xs
  | .object ms => WFMembers ms
  | .int _ => False
  | .typed _ => False
  | .unsupported => False
/-- Every element is well formed. -/
def WFList : List GoValue → Prop
  | [] => True
  | x :: xs => x.WF ∧ WFList xs
/-- The entries of a Go map: well-formed values under distinct keys. -/
def WFMembers : List (String × GoValue) → Prop
  | [] => True
  | (k, v) :: ms => v.WF ∧ (∀ p ∈ ms, p.1 ≠ k) ∧ WFMembers ms
end

/-- The Go type `map[string]interface{}`: `none` is the nil map. -/
abbrev SpecMap := Option (List (String × GoValue))

/-- A `map[string]interface{}` as `encoding/json` itself builds it: nil, or well-formed
entries under distinct keys. -/
def SpecMap.WF : SpecMap → Prop
  | none => True
  | some m => WFMembers m

/-- The members written for the entries of a map, entry by entry: the same key, and a
value that decodes to the entry's value. -/
def Encodes (ms : List (String × GoValue)) (js : List (String × JValue)) : Prop :=
  List.Forall₂ (fun p q => q.1 = p.1 ∧ q.2.toGo = .ok p.2) ms js

/-- A text handed to `json.Unmarshal`, by what the scanner makes of it: not JSON at all,
or the JSON value it denotes. -/
inductive Text where
  | invalid
  | json (v : JValue)
deriving Repr, Inhabited

/-- Case-insensitive match of one character of a key against a character of the field
name, as `encoding/json` folds it: ASCII case, and the long s for `s`. -/
def foldChar (field key : Char) : Bool :=
  key.toLower == field || (field == 's' && key == 'ſ')

/-- Case-insensitive match of a key against a lower-case field name. -/
def foldEq : List Char → List Char → Bool
  | [], [] => true
  | f :: fs, k :: ks => foldChar f k && foldEq fs ks
  | _, _ => false

/-- Does the object key select the struct field tagged `json:"spec"`? -/
def isSpecKey (key : String) : Bool :=
  foldEq "spec".toList key.toList

/-- Decoding of a JSON value into a field of type `map[string]interface{}` holding `cur`:
`null` sets the nil map, an object is decoded into the map already there (a nil map is
allocated first), anything else is an `UnmarshalTypeError`. -/
def storeSpec (v : JValue) (cur : SpecMap) : Except GoError SpecMap :=
  match v with
  | .null => .ok none
  | .object ms =>
    match toGoMembers (cur.getD []) ms with
    | .ok m => .ok (some m)
    | .error e => .error e
  | _ => .error "json: cannot unmarshal value into Go struct field .spec of type map[string]interface {}"

/-- Decoding of the members of the top-level object, left to right, into a struct whose
only field is `Spec`: a member whose key matches is stored, any other is skipped. -/
def storeFields : List (String × JValue) → SpecMap → Except GoError SpecMap
  | [], cur => .ok cur
  | (k, v) :: rest, cur =>
    if isSpecKey k then
      match storeSpec v cur with
      | .ok cur' => storeFields rest cur'
      | .error e => .error e
    else storeFields rest cur

/-- The function `json.Unmarshal(text, dst)` for a destination struct whose only field
is `Spec`, currently `cur` (reached through one pointer or two: the top-level `null`
leaves the struct alone either way). The result is the field after a successful call. -/
def jsonUnmarshal (t : Text) (cur : SpecMap) : Except GoError SpecMap :=
  match t with
  | .invalid => .error "invalid character looking for beginning of value"
  | .json .null => .ok cur
  | .json (.object ms) => storeFields ms cur
  | .json _ => .error "json: cannot unmarshal value into Go value of type request"

/-- The function `json.MarshalIndent(req, "", "  ")` for a struct whose only field is
`Spec`: one member `spec`, `null` for the nil map; an error when the map holds a value
without a JSON form. -/
def jsonMarshalIndent (spec : SpecMap) : Except GoError Text :=
  match spec with
  | none => .ok (.json (.object [("spec", .null)]))
  | some m =>
    match toJSONMembers m with
    | .ok js => .ok (.json (.object [("spec", .object js)]))
    | .error e => .error e

/-! ## Requests and managers -/

/-- Modelled from the spec: the struct `pipeline.ActivateIntegratedServiceRequest`, whose
declaration is not among the sources; the code reads and writes its field `Spec`, a
free-form mapping. -/
structure ActivateIntegratedServiceRequest where
  Spec : SpecMap
deriving Repr, Inhabited

/-- Modelled from the spec: the struct `pipeline.UpdateIntegratedServiceRequest`, whose
declaration is not among the sources; the code reads and writes its field `Spec`, a
free-form mapping. -/
structure UpdateIntegratedServiceRequest where
  Spec : SpecMap
deriving Repr, Inhabited

/-- The interface `specValidator`. -/
structure specValidator where
  ValidateSpec : SpecMap → Option GoError

/-- The interface `activateManager`; the interactive builder is given by what it returns
in this invocation. -/
structure activateManager extends specValidator where
  ReadableName : String
  ServiceName : String
  BuildActivateRequestInteractively : Except GoError ActivateIntegratedServiceRequest

/-- The interface `updateManager`; the interactive builder is given by the request it
leaves behind the pointer, or its error. -/
structure updateManager extends specValidator where
  ReadableName : String
  ServiceName : String
  BuildUpdateRequestInteractively :
    UpdateIntegratedServiceRequest → Except GoError UpdateIntegratedServiceRequest

/-! ## The outside world -/

/-- What the code reads off an `*http.Response`: status code and status text, the
`Content-Type` header, the request that produced it, and what `ioutil.ReadAll` makes of
the body. -/
structure HttpResponse where
  StatusCode : Int
  Status : String
  ContentType : String
  Request : String
  Body : Except GoError String
deriving Repr, Inhabited

/-- The value handed to `cli.LogAPIError` for diagnosis. -/
inductive Payload where
  | activateRequest (r : ActivateIntegratedServiceRequest)
  | updateRequest (r : UpdateIntegratedServiceRequest)
  | httpRequest (r : String)
deriving Repr

/-- The calls a command makes to its collaborators, in the order of a run. -/
inductive Event where
  | isServiceEnabled
  | optionsInit
  | integratedServiceDetails
  | buildActivateRequestInteractively
  | buildUpdateRequestInteractively (seed : UpdateIntegratedServiceRequest)
  | confirmPrompt
  | editorPrompt (seed : Text)
  | validateSpec (spec : SpecMap)
  | readFileOrStdin (filePath : String)
  | activateIntegratedService (r : ActivateIntegratedServiceRequest)
  | updateIntegratedService (r : UpdateIntegratedServiceRequest)
  | logAPIError (p : Payload)
deriving Repr

/-- The answers the collaborators give during one invocation. -/
structure World where
  /-- The result of `isServiceEnabled`. -/
  serviceEnabled : Option GoError
  /-- The result of `options.Init`. -/
  initResult : Option GoError
  /-- The result of `banzaiCLI.Interactive()`. -/
  interactive : Bool
  /-- The answer to the confirm prompt, or the error of the prompt. -/
  confirm : Except GoError Bool
  /-- The texts the operator saves in the editor, in order; when they run out the
  operator interrupts the prompt. -/
  saves : List Text
  /-- The result of `utils.ReadFileOrStdin`. -/
  input : Except GoError Text
  /-- The `Spec` of the result of `IntegratedServiceDetails`, or its error. -/
  details : Except GoError SpecMap
  /-- The error result of `ActivateIntegratedService`. -/
  activateResult : Option GoError
  /-- The response and error results of `UpdateIntegratedService`. -/
  updateResult : Option HttpResponse × Option GoError

/-- How a command ends: it returns (nil or an error), `log.Fatalf` exits the process, or
a nil pointer is dereferenced. -/
inductive Outcome where
  | returned (err : Option GoError)
  | fatal
  | panic
deriving Repr, DecidableEq

/-! ## The prompt layer -/

/-- Modelled from the spec: `survey.AskOne` on an `Editor` prompt with a validator
(the survey library is not among the sources). The prompt hands each saved text to the
validator and presents the editor again while the validator rejects it; it returns the
first text the validator accepts, or the interrupt error when the operator gives up.
The calls of the validator are kept in the trace. -/
def askEditor (validator : Text → List Event × Option GoError) :
    List Text → List Event × Except GoError Text
  | [] => ([], .error "interrupt")
  | t :: rest =>
    match validator t with
    | (evs, none) => (evs, .ok t)
    | (evs, some _) =>
      let r := askEditor validator rest
      (evs ++ r.1, r.2)

/-! ## activate.go -/

/-- The options of the activate command (the cluster context is a collaborator). -/
structure activateOptions where
  filePath : String

/-- The validator of `makeActivationRequestValidator`: the text is parsed into a fresh
request, then its `Spec` goes to `ValidateSpec`. -/
def makeActivationRequestValidator (v : specValidator) (t : Text) : List Event × Option GoError :=
  let req : ActivateIntegratedServiceRequest := ⟨none⟩
  match jsonUnmarshal t req.Spec with
  | .error e => ([], wrapIf (some e) "request is not valid JSON")
  | .ok spec =>
    let req : ActivateIntegratedServiceRequest := ⟨spec⟩
    ([.validateSpec req.Spec], v.ValidateSpec req.Spec)

/-- The function `showActivateEditor`: the trace, and the error or the request left
behind the pointer `req`. -/
def showActivateEditor (m : activateManager) (w : World) (req : ActivateIntegratedServiceRequest) :
    List Event × Except GoError ActivateIntegratedServiceRequest :=
  match w.confirm with
  | .error e => ([.confirmPrompt], .error ("failure during survey: " ++ e))
  | .ok false => ([.confirmPrompt], .ok req)
  | .ok true =>
    match jsonMarshalIndent req.Spec with
    | .error e => ([.confirmPrompt], .error ("failed to marshal request to JSON: " ++ e))
    | .ok content =>
      match askEditor (makeActivationRequestValidator m.tospecValidator) w.saves with
      | (evs, .error e) =>
        (.confirmPrompt :: .editorPrompt content :: evs, .error ("failure during survey: " ++ e))
      | (evs, .ok result) =>
        match jsonUnmarshal result req.Spec with
        | .error e =>
          (.confirmPrompt :: .editorPrompt content :: evs,
            .error ("failed to unmarshal JSON as request: " ++ e))
        | .ok spec => (.confirmPrompt :: .editorPrompt content :: evs, .ok ⟨spec⟩)

/-- The function `readActivateReqFromFileOrStdin`. -/
def readActivateReqFromFileOrStdin (w : World) (filePath : String)
    (req : ActivateIntegratedServiceRequest) :
    List Event × Except GoError ActivateIntegratedServiceRequest :=
  match w.input with
  | .error e => ([.readFileOrStdin filePath], .error ("failed to read: " ++ e))
  | .ok raw =>
    match jsonUnmarshal raw req.Spec with
    | .error e => ([.readFileOrStdin filePath], .error ("failed to unmarshal input: " ++ e))
    | .ok spec => ([.readFileOrStdin filePath], .ok ⟨spec⟩)

/-- The tail of `runActivate`: the API call and its failure handling. -/
def submitActivate (w : World) (request : ActivateIntegratedServiceRequest) :
    List Event × Outcome :=
  match w.activateResult with
  | some _ => ([.activateIntegratedService request, .logAPIError (.activateRequest request)], .fatal)
  | none => ([.activateIntegratedService request], .returned none)

/-- The function `runActivate`. -/
def runActivate (m : activateManager) (w : World) (options : activateOptions) :
    List Event × Outcome :=
  match w.serviceEnabled with
  | some e => ([.isServiceEnabled], .returned (wrapIf (some e) "failed to check service"))
  | none =>
    match w.initResult with
    | some e =>
      ([.isServiceEnabled, .optionsInit], .returned (some ("failed to initialize options: " ++ e)))
    | none =>
      if options.filePath = "" ∧ w.interactive = true then
        match m.BuildActivateRequestInteractively with
        | .error e =>
          ([.isServiceEnabled, .optionsInit, .buildActivateRequestInteractively],
            .returned (wrapIf (some e) "failed to build activate request interactively"))
        | .ok request =>
          match showActivateEditor m w request with
          | (evs, .error e) =>
            ([.isServiceEnabled, .optionsInit, .buildActivateRequestInteractively] ++ evs,
              .returned (wrapIf (some e) "failed during showing editor"))
          | (evs, .ok request) =>
            let s := submitActivate w request
            ([.isServiceEnabled, .optionsInit, .buildActivateRequestInteractively] ++ evs ++ s.1, s.2)
      else
        match readActivateReqFromFileOrStdin w options.filePath ⟨none⟩ with
        | (evs, .error e) =>
          ([.isServiceEnabled, .optionsInit] ++ evs,
            .returned (wrapIf (some e)
              ("failed to read " ++ m.ReadableName ++ " cluster service specification")))
        | (evs, .ok request) =>
          let s := submitActivate w request
          ([.isServiceEnabled, .optionsInit] ++ evs ++ s.1, s.2)

/-! ## update.go -/

/-- The options of the update command (the cluster context is a collaborator). -/
structure updateOptions where
  filePath : String

/-- The validator of `makeUpdateRequestValidator`: the text is parsed into a fresh
request, then its `Spec` goes to `ValidateSpec`. -/
def makeUpdateRequestValidator (v : specValidator) (t : Text) : List Event × Option GoError :=
  let req : UpdateIntegratedServiceRequest := ⟨none⟩
  match jsonUnmarshal t req.Spec with
  | .error e => ([], wrapIf (some e) "request is not valid JSON")
  | .ok spec =>
    let req : UpdateIntegratedServiceRequest := ⟨spec⟩
    ([.validateSpec req.Spec], v.ValidateSpec req.Spec)

/-- The function `showUpdateEditor`: the trace, and the error or the request left behind
the pointer `request`. -/
def showUpdateEditor (m : updateManager) (w : World) (request : UpdateIntegratedServiceRequest) :
    List Event × Except GoError UpdateIntegratedServiceRequest :=
  match w.confirm with
  | .error e => ([.confirmPrompt], .error ("failure during survey: " ++ e))
  | .ok false => ([.confirmPrompt], .ok request)
  | .ok true =>
    match jsonMarshalIndent request.Spec with
    | .error e => ([.confirmPrompt], .error ("failed to marshal request to JSON: " ++ e))
    | .ok content =>
      match askEditor (makeUpdateRequestValidator m.tospecValidator) w.saves with
      | (evs, .error e) =>
        (.confirmPrompt :: .editorPrompt content :: evs, .error ("failure during survey: " ++ e))
      | (evs, .ok result) =>
        match jsonUnmarshal result request.Spec with
        | .error e =>
          (.confirmPrompt :: .editorPrompt content :: evs,
            .error ("failed to unmarshal JSON as request: " ++ e))
        | .ok spec => (.confirmPrompt :: .editorPrompt content :: evs, .ok ⟨spec⟩)

/-- The function `readUpdateReqFromFileOrStdin`. -/
def readUpdateReqFromFileOrStdin (w : World) (filePath : String)
    (req : UpdateIntegratedServiceRequest) :
    List Event × Except GoError UpdateIntegratedServiceRequest :=
  match w.input with
  | .error e => ([.readFileOrStdin filePath], .error ("failed to read: " ++ e))
  | .ok raw =>
    match jsonUnmarshal raw req.Spec with
    | .error e => ([.readFileOrStdin filePath], .error ("failed to unmarshal input: " ++ e))
    | .ok spec => ([.readFileOrStdin filePath], .ok ⟨spec⟩)

/-- The tail of `runUpdate`: the API call and its failure handling, which reads
`resp.Request` before it logs. -/
def submitUpdate (w : World) (request : UpdateIntegratedServiceRequest) :
    List Event × Outcome :=
  match w.updateResult with
  | (_, none) => ([.updateIntegratedService request], .returned none)
  | (none, some _) => ([.updateIntegratedService request], .panic)
  | (some resp, some _) =>
    ([.updateIntegratedService request, .logAPIError (.httpRequest resp.Request)], .fatal)

/-- The function `runUpdate`. -/
def runUpdate (m : updateManager) (w : World) (options : updateOptions) :
    List Event × Outcome :=
  match w.serviceEnabled with
  | some e => ([.isServiceEnabled], .returned (wrapIf (some e) "failed to check service"))
  | none =>
    match w.initResult with
    | some e =>
      ([.isServiceEnabled, .optionsInit], .returned (some ("failed to initialize options: " ++ e)))
    | none =>
      if options.filePath = "" ∧ w.interactive = true then
        match w.details with
        | .error e =>
          ([.isServiceEnabled, .optionsInit, .integratedServiceDetails],
            .returned (wrapIf (some e) "failed to get service details"))
        | .ok spec =>
          let request : UpdateIntegratedServiceRequest := ⟨spec⟩
          match m.BuildUpdateRequestInteractively request with
          | .error e =>
            ([.isServiceEnabled, .optionsInit, .integratedServiceDetails,
                .buildUpdateRequestInteractively request],
              .returned (wrapIf (some e) "failed to build update request interactively"))
          | .ok built =>
            match showUpdateEditor m w built with
            | (evs, .error e) =>
              ([.isServiceEnabled, .optionsInit, .integratedServiceDetails,
                  .buildUpdateRequestInteractively request] ++ evs,
                .returned (wrapIf (some e) "failed during showing editor"))
            | (evs, .ok edited) =>
              let s := submitUpdate w edited
              ([.isServiceEnabled, .optionsInit, .integratedServiceDetails,
                  .buildUpdateRequestInteractively request] ++ evs ++ s.1, s.2)
      else
        match readUpdateReqFromFileOrStdin w options.filePath ⟨none⟩ with
        | (evs, .error e) =>
          ([.isServiceEnabled, .optionsInit] ++ evs,
            .returned (wrapIf (some e)
              ("failed to read " ++ m.ReadableName ++ " cluster service specification")))
        | (evs, .ok request) =>
          let s := submitUpdate w request
          ([.isServiceEnabled, .optionsInit] ++ evs ++ s.1, s.2)

/-! ## api_clustergroup_deployments.go -/

/-- Modelled from the spec: the struct `CommonError`, whose declaration is not among the
sources: a structured error object with a status and a message. -/
structure CommonError where
  code : Int
  message : String
  error : String
deriving Repr, DecidableEq, Inhabited

/-- The struct `GenericOpenAPIError`: raw body, description, decoded model when there is
one. -/
structure GenericOpenAPIError where
  body : String
  error : String
  model : Option CommonError
deriving Repr, DecidableEq

/-- The `error` result of a generated operation: an error of a collaborator handed on
as it is, or a `GenericOpenAPIError`. -/
inductive ApiError where
  | plain (e : GoError)
  | openAPI (e : GenericOpenAPIError)
deriving Repr, DecidableEq

/-- The collaborators of a generated operation with return type `α`: the outcome of
`prepareRequest` and of `callAPI`, and `a.client.decode` into a `CommonError` and into
the return value (the value left in the destination, and the error). -/
structure ApiClient (α : Type) where
  prepareRequest : Except GoError String
  callAPI : String → Option HttpResponse × Option GoError
  decodeError : String → String → CommonError × Option GoError
  decodeValue : α → String → String → α × Option GoError

/-- The body shared by the generated operations, from `prepareRequest` on:
`localVarReturnValue` starts as `zero`. -/
def invoke {α : Type} (a : ApiClient α) (zero : α) : α × Option HttpResponse × Option ApiError :=
  match a.prepareRequest with
  | .error err => (zero, none, some (.plain err))
  | .ok r =>
    match a.callAPI r with
    | (resp, some err) => (zero, resp, some (.plain err))
    | (none, none) => (zero, none, none)
    | (some resp, none) =>
      match resp.Body with
      | .error err => (zero, some resp, some (.plain err))
      | .ok localVarBody =>
        if resp.StatusCode ≥ 300 then
          let newErr : GenericOpenAPIError := ⟨localVarBody, resp.Status, none⟩
          match a.decodeError localVarBody resp.ContentType with
          | (_, some err) => (zero, some resp, some (.openAPI { newErr with error := err }))
          | (v, none) => (zero, some resp, some (.openAPI { newErr with model := some v }))
        else
          match a.decodeValue zero localVarBody resp.ContentType with
          | (v, some err) => (v, some resp, some (.openAPI ⟨localVarBody, err, none⟩))
          | (v, none) => (v, some resp, none)

/-- The operation `ApiV1OrgsOrgidClustergroupsClusterGroupIdDeploymentsDeploymentNameDelete`
from `prepareRequest` on. -/
def ApiV1OrgsOrgidClustergroupsClusterGroupIdDeploymentsDeploymentNameDelete {α : Type}
    (a : ApiClient α) (zero : α) : α × Option HttpResponse × Option ApiError :=
  invoke a zero

/-- The operation `ApiV1OrgsOrgidClustergroupsClusterGroupIdDeploymentsPost` from
`prepareRequest` on. -/
def ApiV1OrgsOrgidClustergroupsClusterGroupIdDeploymentsPost {α : Type}
    (a : ApiClient α) (zero : α) : α × Option HttpResponse × Option ApiError :=
  invoke a zero

/-- The operation `ApiV1OrgsOrgidClustergroupsClusterGroupIdDeploymentsDeploymentNameGet`
from `prepareRequest` on. -/
def ApiV1OrgsOrgidClustergroupsClusterGroupIdDeploymentsDeploymentNameGet {α : Type}
    (a : ApiClient α) (zero : α) : α × Option HttpResponse × Option ApiError :=
  invoke a zero

/-- The operation `ApiV1OrgsOrgidClustergroupsClusterGroupIdDeploymentsDeploymentNamePut`
from `prepareRequest` on. -/
def ApiV1OrgsOrgidClustergroupsClusterGroupIdDeploymentsDeploymentNamePut {α : Type}
    (a : ApiClient α) (zero : α) : α × Option HttpResponse × Option ApiError :=
  invoke a zero

/-- The operation
`ApiV1OrgsOrgidClustergroupsClusterGroupIdDeploymentsDeploymentNameSyncPut` from
`prepareRequest` on. -/
def ApiV1OrgsOrgidClustergroupsClusterGroupIdDeploymentsDeploymentNameSyncPut {α : Type}
    (a : ApiClient α) (zero : α) : α × Option HttpResponse × Option ApiError :=
  invoke a zero

/-- The operation `ApiV1OrgsOrgidClustergroupsClusterGroupIdDeploymentsGet` from
`prepareRequest` on. -/
def ApiV1OrgsOrgidClustergroupsClusterGroupIdDeploymentsGet {α : Type}
    (a : ApiClient α) (zero : α) : α × Option HttpResponse × Option ApiError :=
  invoke a zero

/-- The method `Error()` of a returned error: its description. -/
def ApiError.Error : ApiError → String
  | .plain e => e
  | .openAPI e => e.error

/-! ## The request paths of api_clustergroup_deployments.go -/

/-- The scan of `strings.Replace(s, old, new, -1)` for a non-empty `old`: every
occurrence of `old`, left to right and without overlap, becomes `new`; `fuel` bounds
the number of steps. -/
def replaceAllAux (old new : List Char) : Nat → List Char → List Char
  | 0, s => s
  | _ + 1, [] => []
  | fuel + 1, c :: cs =>
    if old.isPrefixOf (c :: cs) then
      new ++ replaceAllAux old new fuel ((c :: cs).drop old.length)
    else c :: replaceAllAux old new fuel cs

/-- The function `strings.Replace(s, old, new, -1)` for a non-empty `old`. -/
def stringsReplace (s old new : String) : String :=
  String.mk (replaceAllAux old.toList new.toList s.length s.toList)

/-- The upper-case hexadecimal digit of a number below 16. -/
def upperhex (n : Nat) : Char :=
  "0123456789ABCDEF".toList.getD n '0'

/-- The percent-encoding of one byte. -/
def escapeByte (b : UInt8) : List Char :=
  ['%', upperhex (b.toNat / 16), upperhex (b.toNat % 16)]

/-- The characters `url.QueryEscape` leaves as they are: ASCII letters and digits and
`-`, `_`, `.`, `~`. -/
def unreserved (c : Char) : Bool :=
  c.isAlphanum || c == '-' || c == '_' || c == '.' || c == '~'

/-- The function `url.QueryEscape`: a space becomes `+`, an unreserved character stays,
every other character is percent-encoded byte by byte. -/
def queryEscape (s : String) : String :=
  String.mk (s.toList.flatMap fun c =>
    if c = ' ' then ['+']
    else if unreserved c then [c]
    else (String.utf8EncodeChar c).flatMap escapeByte)

/-- The helper `parameterToString` of the generated client (not among the sources) on an
`int32`: its decimal form. On a string it is the string itself. -/
def parameterToString (n : Int) : String :=
  toString n

/-- The `localVarPath` of the operations on one deployment (`DeploymentNameDelete`,
`DeploymentNameGet`, `DeploymentNamePut`). -/
def localVarPathDeploymentName (basePath : String) (orgId clusterGroupId : Int)
    (deploymentName : String) : String :=
  let localVarPath := basePath ++
    "/api/v1/orgs/{orgid}/clustergroups/{clusterGroupId}/deployments/{deploymentName}"
  let localVarPath := stringsReplace localVarPath ("\x7b" ++ "orgId" ++ "\x7d")
    (queryEscape (parameterToString orgId))
  let localVarPath := stringsReplace localVarPath ("\x7b" ++ "clusterGroupId" ++ "\x7d")
    (queryEscape (parameterToString clusterGroupId))
  stringsReplace localVarPath ("\x7b" ++ "deploymentName" ++ "\x7d") (queryEscape deploymentName)

/-- The `localVarPath` of the operation `DeploymentNameSyncPut`. -/
def localVarPathDeploymentNameSync (basePath : String) (orgId clusterGroupId : Int)
    (deploymentName : String) : String :=
  let localVarPath := basePath ++
    "/api/v1/orgs/{orgid}/clustergroups/{clusterGroupId}/deployments/{deploymentName}/sync"
  let localVarPath := stringsReplace localVarPath ("\x7b" ++ "orgId" ++ "\x7d")
    (queryEscape (parameterToString orgId))
  let localVarPath := stringsReplace localVarPath ("\x7b" ++ "clusterGroupId" ++ "\x7d")
    (queryEscape (parameterToString clusterGroupId))
  stringsReplace localVarPath ("\x7b" ++ "deploymentName" ++ "\x7d") (queryEscape deploymentName)

/-- The `localVarPath` of the operations on the deployments of a cluster group
(`DeploymentsGet`, `DeploymentsPost`). -/
def localVarPathDeployments (basePath : String) (orgId clusterGroupId : Int) : String :=
  let localVarPath := basePath ++
    "/api/v1/orgs/{orgid}/clustergroups/{clusterGroupId}/deployments"
  let localVarPath := stringsReplace localVarPath ("\x7b" ++ "orgId" ++ "\x7d")
    (queryEscape (parameterToString orgId))
  stringsReplace localVarPath ("\x7b" ++ "clusterGroupId" ++ "\x7d")
    (queryEscape (parameterToString clusterGroupId))

/-- Does `sub` occur in `s`? -/
def containsSubstr (s sub : String) : Bool :=
  s.toList.tails.any fun t => sub.toList.isPrefixOf t

/-! ## The two request types -/

/-- The identification of the two request types: the update request with the same
`Spec`. -/
def toUpdateRequest (r : ActivateIntegratedServiceRequest) : UpdateIntegratedServiceRequest :=
  ⟨r.Spec⟩

/-! ## Classification of the calls in a trace -/

/-- Is the call one of the interactive builders? -/
def Event.isBuilder : Event → Bool
  | .buildActivateRequestInteractively => true
  | .buildUpdateRequestInteractively _ => true
  | _ => false

/-- Is the call the file / standard input reader? -/
def Event.isReader : Event → Bool
  | .readFileOrStdin _ => true
  | _ => false

/-- Is the call one the edit loop makes: a prompt, or `ValidateSpec`? -/
def Event.isEditLoop : Event → Bool
  | .confirmPrompt => true
  | .editorPrompt _ => true
  | .validateSpec _ => true
  | _ => false

/-- Is the call one the submission step makes: the API call, or `cli.LogAPIError`? -/
def Event.isSubmission : Event → Bool
  | .activateIntegratedService _ => true
  | .updateIntegratedService _ => true
  | .logAPIError _ => true
  | _ => false

/-! ## Example data -/

/-- A validator in the manner of the scenario of the spec: `replicas`, when the spec has
it as a number, must not be negative. -/
def replicasValidator : specValidator where
  ValidateSpec := fun spec =>
    match spec with
    | none => none
    | some ms =>
      if ms.any (fun p => match p with
        | (k, .number n) => k == "replicas" && decide (n < 0)
        | _ => false)
      then some "replicas must be >= 0" else none

/-- The document with the single spec entry `replicas = n`. -/
def replicasDoc (n : Int) : Text :=
  .json (.object [("spec", .object [("replicas", .number n)])])

/-- An activate manager with `replicasValidator` whose builder produces `spec`. -/
def replicasActivateManager (spec : SpecMap) : activateManager where
  ValidateSpec := replicasValidator.ValidateSpec
  ReadableName := "Monitoring"
  ServiceName := "monitoring"
  BuildActivateRequestInteractively := .ok ⟨spec⟩

/-- An update manager with `replicasValidator` whose builder keeps the request as seeded. -/
def replicasUpdateManager : updateManager where
  ValidateSpec := replicasValidator.ValidateSpec
  ReadableName := "Monitoring"
  ServiceName := "monitoring"
  BuildUpdateRequestInteractively := fun request => .ok request

/-- An interactive session in which every collaborator succeeds: the operator answers
the confirm prompt with `edit` and saves `saves` in the editor; `input` is what a file
would hold, `details` the spec the remote side returns. -/
def sessionWorld (edit : Bool) (saves : List Text) (input : Text) (details : SpecMap) : World where
  serviceEnabled := none
  initResult := none
  interactive := true
  confirm := .ok edit
  saves := saves
  input := .ok input
  details := .ok details
  activateResult := none
  updateResult := (none, none)

/-- The session `sessionWorld` in which the service-enabled check fails. -/
def disabledWorld (input : Text) : World :=
  { sessionWorld true [] input none with serviceEnabled := some "service not enabled" }

/-- The session `sessionWorld` in which the details fetch fails. -/
def fetchFailureWorld : World :=
  { sessionWorld true [] .invalid none with details := .error "not found" }

/-- A client whose remote side answers with status 500 and a plain-text body, which
`decode` cannot read (`undefined response type`). -/
def plainTextClient : ApiClient String where
  prepareRequest := .ok "request"
  callAPI := fun r => (some ⟨500, "500 Internal Server Error", "text/plain", r, .ok "oops"⟩, none)
  decodeError := fun _ _ => (default, some "undefined response type")
  decodeValue := fun v _ _ => (v, some "undefined response type")

/-- A client whose remote side answers with status 409 and the structured error
`message = already active`. -/
def conflictClient : ApiClient String where
  prepareRequest := .ok "request"
  callAPI := fun r =>
    (some ⟨409, "409 Conflict", "application/json", r,
      .ok "\x7b\"message\":\"already active\"\x7d"⟩, none)
  decodeError := fun _ _ => (⟨0, "already active", ""⟩, none)
  decodeValue := fun v _ _ => (v, some "unexpected")

/-- A client whose remote side answers with status 101 and a body that decodes. -/
def switchingClient : ApiClient String where
  prepareRequest := .ok "request"
  callAPI := fun r => (some ⟨101, "101 Switching Protocols", "application/json", r, .ok "\"ok\""⟩, none)
  decodeError := fun _ _ => (default, some "unexpected")
  decodeValue := fun _ _ _ => ("ok", none)

/-- A client that cannot reach the remote side: `callAPI` gives no response and an
error. -/
def unreachableClient : ApiClient String where
  prepareRequest := .ok "request"
  callAPI := fun _ => (none, some "dial tcp: connection refused")
  decodeError := fun _ _ => (default, none)
  decodeValue := fun _ _ _ => ("decoded", none)

/-- A session on the file path (`input` is what the file holds) in which the activate /
update API call fails with `err`, `resp` being the response the update call returns
with it. -/
def apiFailureWorld (input : Text) (resp : Option HttpResponse) (err : GoError) : World :=
  { sessionWorld false [] input none with
    activateResult := some err
    updateResult := (resp, some err) }

/-- A session on the file path in which reading the input gives `input`. -/
def fileWorld (input : Except GoError Text) : World :=
  { sessionWorld false [] .invalid none with input := input }

/-! ## Lemmas on the JSON layer -/

theorem mapInsert_fresh (k : String) (v : GoValue) (acc : List (String × GoValue))
    (h : ∀ q ∈ acc, q.1 ≠ k) : mapInsert k v acc = acc ++ [(k, v)] := by
  induction acc with
  | nil => rfl
  | cons q rest ih =>
    obtain ⟨k', v'⟩ := q
    have h1 : k' ≠ k := h (k', v') (List.mem_cons_self _ _)
    have h2 : ∀ q ∈ rest, q.1 ≠ k := fun q hq => h q (List.mem_cons_of_mem _ hq)
    simp [mapInsert, h1, ih h2]

/-- Whatever `pickNearest` returns reads back as the float64. -/
theorem pickNearest_key (key : Bool × Option (Nat × Int)) (lo hi r : Int × Nat)
    (below above even : Bool) (h : pickNearest key lo hi below above even = some r) :
    numberKey r.1 r.2 = key := by
  unfold pickNearest at h
  split at h
  · rename_i hb
    split at h
    · cases h; exact hb.1
    · split at h
      · cases h; exact hb.2
      · split at h
        · cases h; exact hb.1
        · cases h; exact hb.2
  · split at h
    · rename_i hlo
      cases h; exact hlo
    · split at h
      · rename_i hhi
        cases h; exact hhi
      · cases h

/-- Whatever the search for the shortest decimal returns reads back as the same
float64. -/
theorem shortestAux_key (neg : Bool) (num den : Nat) (key : Bool × Option (Nat × Int))
    (l10 : Int) : ∀ (fuel nd : Nat) (r : Int × Nat),
    shortestAux neg num den key l10 fuel nd = some r → numberKey r.1 r.2 = key := by
  intro fuel
  induction fuel with
  | zero => intro nd r h; simp [shortestAux] at h
  | succ fuel ih =>
    intro nd r h
    unfold shortestAux at h
    simp only at h
    split at h
    · rename_i r' hr
      cases h
      exact pickNearest_key _ _ _ _ _ _ _ hr
    · exact ih _ _ h

/-- The decimal written for a float64 reads back as the same float64. -/
theorem encodeFloat_key (c : Int) (k : Nat) :
    numberKey (encodeFloat c k).1 (encodeFloat c k).2 = numberKey c k := by
  unfold encodeFloat
  split
  · rename_i hc
    subst hc
    simp [numberKey, roundFloat64]
  · split
    · rename_i r hr
      exact shortestAux_key _ _ _ _ _ _ _ r hr
    · rfl

/-- Two literals with the same sign and the same nearest float64 decode alike. -/
theorem decodeNumber_congr (c c' : Int) (k k' : Nat) (h : numberKey c k = numberKey c' k') :
    decodeNumber c k = decodeNumber c' k' := by
  unfold decodeNumber
  rw [h]

/-- The literal of a decimal decodes as the decimal does. -/
theorem numberToken_toGo (ck : Int × Nat) : (numberToken ck).toGo = decodeNumber ck.1 ck.2 := by
  unfold numberToken
  split
  · rename_i h
    simp [JValue.toGo, h]
  · simp [JValue.toGo]

/-- The literal written for a float64 decodes as the decimal of the float64 does. -/
theorem encodeFloat_toGo (c : Int) (k : Nat) :
    (numberToken (encodeFloat c k)).toGo = decodeNumber c k := by
  rw [numberToken_toGo]
  exact decodeNumber_congr _ _ _ _ (encodeFloat_key c k)

mutual
theorem toJSON_toGo : ∀ v : GoValue, v.WF → ∃ j, v.toJSON = .ok j ∧ j.toGo = .ok v
  | .null, _ => ⟨.null, rfl, rfl⟩
  | .bool b, _ => ⟨.bool b, rfl, rfl⟩
  | .number n, h => by
    refine ⟨numberToken (encodeFloat n 0), rfl, ?_⟩
    rw [encodeFloat_toGo]
    simpa [GoValue.WF] using h
  | .decimal m k, h => by
    refine ⟨numberToken (encodeFloat m k), rfl, ?_⟩
    rw [encodeFloat_toGo]
    simpa [GoValue.WF] using h
  | .negZero, _ => ⟨.negZero, rfl, rfl⟩
  | .string s, _ => ⟨.string s, rfl, rfl⟩
  | .array xs, h => by
    obtain ⟨js, h1, h2⟩ := toJSONList_toGo xs (by simpa [GoValue.WF] using h)
    exact ⟨.array js, by simp [GoValue.toJSON, h1], by simp [JValue.toGo, h2]⟩
  | .object ms, h => by
    have hwf : WFMembers ms := by simpa [GoValue.WF] using h
    obtain ⟨js, h1, h2⟩ := toJSONMembers_encodes ms hwf
    refine ⟨.object js, by simp [GoValue.toJSON, h1], ?_⟩
    have := toGoMembers_fresh ms hwf js h2 [] (by simp)
    simp [JValue.toGo, this]
  | .int _, h => by simp [GoValue.WF] at h
  | .typed _, h => by simp [GoValue.WF] at h
  | .unsupported, h => by simp [GoValue.WF] at h
theorem toJSONList_toGo : ∀ xs : List GoValue, WFList xs →
    ∃ js, toJSONList xs = .ok js ∧ toGoList js = .ok xs
  | [], _ => ⟨[], rfl, rfl⟩
  | x :: xs, h => by
    have h' : x.WF ∧ WFList xs := by simpa [WFList] using h
    obtain ⟨j, h1, h2⟩ := toJSON_toGo x h'.1
    obtain ⟨js, h3, h4⟩ := toJSONList_toGo xs h'.2
    exact ⟨j :: js, by simp [toJSONList, h1, h3], by simp [toGoList, h2, h4]⟩
theorem toJSONMembers_encodes : ∀ ms : List (String × GoValue), WFMembers ms →
    ∃ js, toJSONMembers ms = .ok js ∧ Encodes ms js
  | [], _ => ⟨[], rfl, List.Forall₂.nil⟩
  | (k, v) :: ms, h => by
    have h' : v.WF ∧ (∀ p ∈ ms, p.1 ≠ k) ∧ WFMembers ms := by simpa [WFMembers] using h
    obtain ⟨j, h1, h2⟩ := toJSON_toGo v h'.1
    obtain ⟨js, h3, h4⟩ := toJSONMembers_encodes ms h'.2.2
    exact ⟨(k, j) :: js, by simp [toJSONMembers, h1, h3], List.Forall₂.cons ⟨rfl, h2⟩ h4⟩
theorem toGoMembers_fresh : ∀ (ms : List (String × GoValue)), WFMembers ms →
    ∀ (js : List (String × JValue)), Encodes ms js →
    ∀ acc : List (String × GoValue), (∀ p ∈ ms, ∀ q ∈ acc, q.1 ≠ p.1) →
    toGoMembers acc js = .ok (acc ++ ms)
  | [], _, js, he, acc, _ => by
    cases he
    simp [toGoMembers]
  | (k, v) :: ms, h, js, he, acc, hd => by
    have h' : v.WF ∧ (∀ p ∈ ms, p.1 ≠ k) ∧ WFMembers ms := by simpa [WFMembers] using h
    cases he with
    | cons hj hrest =>
      rename_i j js'
      obtain ⟨kj, vj⟩ := j
      obtain ⟨hk, hv⟩ := hj
      simp only at hk hv
      subst hk
      have hk : ∀ q ∈ acc, q.1 ≠ kj := fun q hq => hd (kj, v) (List.mem_cons_self _ _) q hq
      have ih := toGoMembers_fresh ms h'.2.2 js' hrest (acc ++ [(kj, v)]) (by
        intro p hp q hq
        rcases List.mem_append.1 hq with hq | hq
        · exact hd p (List.mem_cons_of_mem _ hp) q hq
        · have : q = (kj, v) := by simpa using hq
          subst this
          exact fun e => h'.2.1 p hp e.symm)
      simp [toGoMembers, hv, mapInsert_fresh kj v acc hk, ih]
end

/-- Whether the members of an object decode does not depend on the map they are decoded
into. -/
theorem toGoMembers_ok_of_ok (ms : List (String × JValue)) :
    ∀ (a1 a2 r1 : List (String × GoValue)), toGoMembers a1 ms = .ok r1 →
      ∃ r2, toGoMembers a2 ms = .ok r2 := by
  induction ms with
  | nil => intro a1 a2 r1 _; exact ⟨a2, rfl⟩
  | cons p rest ih =>
    obtain ⟨k, v⟩ := p
    intro a1 a2 r1 h
    cases hv : v.toGo with
    | error e => simp [toGoMembers, hv] at h
    | ok g =>
      simp only [toGoMembers, hv] at h ⊢
      exact ih _ _ _ h

/-- Whether `storeSpec` succeeds does not depend on the field it decodes into. -/
theorem storeSpec_ok_of_ok (v : JValue) (c1 c2 s1 : SpecMap) (h : storeSpec v c1 = .ok s1) :
    ∃ s2, storeSpec v c2 = .ok s2 := by
  cases v <;> simp [storeSpec] at h ⊢
  rename_i ms
  cases h1 : toGoMembers (c1.getD []) ms with
  | error e => simp [h1] at h
  | ok r1 =>
    obtain ⟨r2, h2⟩ := toGoMembers_ok_of_ok ms _ (c2.getD []) r1 h1
    simp [h2]

/-- Whether `storeFields` succeeds does not depend on the field it decodes into. -/
theorem storeFields_ok_of_ok (ms : List (String × JValue)) :
    ∀ (c1 c2 s1 : SpecMap), storeFields ms c1 = .ok s1 → ∃ s2, storeFields ms c2 = .ok s2 := by
  induction ms with
  | nil => intro c1 c2 s1 _; exact ⟨c2, rfl⟩
  | cons p rest ih =>
    obtain ⟨k, v⟩ := p
    intro c1 c2 s1 h
    by_cases hk : isSpecKey k = true
    · cases h1 : storeSpec v c1 with
      | error e => simp [storeFields, hk, h1] at h
      | ok s =>
        obtain ⟨s', h2⟩ := storeSpec_ok_of_ok v c1 c2 s h1
        simp only [storeFields, hk, h1, h2, if_true] at h ⊢
        exact ih _ _ _ h
    · simp only [storeFields, hk] at h ⊢
      exact ih _ _ _ h

/-- Whether `json.Unmarshal` succeeds does not depend on the destination's content. -/
theorem jsonUnmarshal_ok_of_ok (t : Text) (c1 c2 s1 : SpecMap)
    (h : jsonUnmarshal t c1 = .ok s1) : ∃ s2, jsonUnmarshal t c2 = .ok s2 := by
  cases t with
  | invalid => simp [jsonUnmarshal] at h
  | json v =>
    cases v <;> simp [jsonUnmarshal] at h ⊢
    exact storeFields_ok_of_ok _ _ _ _ h

/-! ## Lemmas on the prompt layer -/

theorem askEditor_events (validator : Text → List Event × Option GoError) (P : Event → Prop)
    (hP : ∀ t, ∀ ev ∈ (validator t).1, P ev) :
    ∀ ts, ∀ ev ∈ (askEditor validator ts).1, P ev := by
  intro ts
  induction ts with
  | nil => intro ev h; simp [askEditor] at h
  | cons t rest ih =>
    intro ev h
    rcases hv : validator t with ⟨evs, _ | e⟩
    · simp [askEditor, hv] at h
      exact hP t ev (by rw [hv]; exact h)
    · simp [askEditor, hv] at h
      rcases h with h | h
      · exact hP t ev (by rw [hv]; exact h)
      · exact ih ev h

theorem askEditor_first (validator : Text → List Event × Option GoError) (t : Text)
    (post : List Text) (ht : (validator t).2 = none) :
    ∀ pre, (∀ x ∈ pre, (validator x).2 ≠ none) →
      (askEditor validator (pre ++ t :: post)).2 = .ok t := by
  intro pre
  induction pre with
  | nil =>
    intro _
    rcases hv : validator t with ⟨evs, _ | e⟩
    · simp [askEditor, hv]
    · simp [hv] at ht
  | cons x rest ih =>
    intro h
    rcases hv : validator x with ⟨evs, _ | e⟩
    · exact absurd (by simp [hv]) (h x (List.mem_cons_self _ _))
    · simp only [List.cons_append, askEditor, hv]
      exact ih (fun y hy => h y (List.mem_cons_of_mem _ hy))

theorem askEditor_rejected (validator : Text → List Event × Option GoError) :
    ∀ ts, (∀ x ∈ ts, (validator x).2 ≠ none) →
      (askEditor validator ts).2 = .error "interrupt" := by
  intro ts
  induction ts with
  | nil => intro _; rfl
  | cons x rest ih =>
    intro h
    rcases hv : validator x with ⟨evs, _ | e⟩
    · exact absurd (by simp [hv]) (h x (List.mem_cons_self _ _))
    · simp only [askEditor, hv]
      exact ih (fun y hy => h y (List.mem_cons_of_mem _ hy))

theorem askEditor_ok (validator : Text → List Event × Option GoError) (t : Text) :
    ∀ ts, (askEditor validator ts).2 = .ok t →
      ∃ pre post, ts = pre ++ t :: post ∧ (∀ x ∈ pre, (validator x).2 ≠ none) ∧
        (validator t).2 = none := by
  intro ts
  induction ts with
  | nil => intro h; simp [askEditor] at h
  | cons x rest ih =>
    intro h
    rcases hv : validator x with ⟨evs, _ | e⟩
    · simp [askEditor, hv] at h
      subst h
      exact ⟨[], rest, rfl, by simp, by simp [hv]⟩
    · simp only [askEditor, hv] at h
      obtain ⟨pre, post, h1, h2, h3⟩ := ih h
      refine ⟨x :: pre, post, by simp [h1], ?_, h3⟩
      intro y hy
      rcases List.mem_cons.1 hy with hy | hy
      · subst hy; simp [hv]
      · exact h2 y hy

/-! ## Lemmas on the traces -/

theorem makeActivationRequestValidator_events (v : specValidator) (t : Text) :
    ∀ ev ∈ (makeActivationRequestValidator v t).1, ev.isEditLoop = true := by
  intro ev h
  unfold makeActivationRequestValidator at h
  cases hj : jsonUnmarshal t none <;> simp [hj] at h
  subst h; rfl

theorem makeUpdateRequestValidator_events (v : specValidator) (t : Text) :
    ∀ ev ∈ (makeUpdateRequestValidator v t).1, ev.isEditLoop = true := by
  intro ev h
  unfold makeUpdateRequestValidator at h
  cases hj : jsonUnmarshal t none <;> simp [hj] at h
  subst h; rfl

theorem showActivateEditor_events (m : activateManager) (w : World)
    (r : ActivateIntegratedServiceRequest) :
    ∀ ev ∈ (showActivateEditor m w r).1, ev.isEditLoop = true := by
  have hA := askEditor_events (makeActivationRequestValidator m.tospecValidator)
    (fun ev => ev.isEditLoop = true) (makeActivationRequestValidator_events _) w.saves
  intro ev h
  unfold showActivateEditor at h
  rcases hc : w.confirm with e | b
  · simp [hc] at h; subst h; rfl
  · cases b
    · simp [hc] at h; subst h; rfl
    · rcases hm : jsonMarshalIndent r.Spec with e | content
      · simp [hc, hm] at h; subst h; rfl
      · rcases ha : askEditor (makeActivationRequestValidator m.tospecValidator) w.saves
          with ⟨evs, e | result⟩
        · simp [hc, hm, ha] at h
          rcases h with h | h | h
          · subst h; rfl
          · subst h; rfl
          · exact hA ev (by rw [ha]; exact h)
        · cases hj : jsonUnmarshal result r.Spec <;>
            simp [hc, hm, ha, hj] at h <;>
            rcases h with h | h | h
          · subst h; rfl
          · subst h; rfl
          · exact hA ev (by rw [ha]; exact h)
          · subst h; rfl
          · subst h; rfl
          · exact hA ev (by rw [ha]; exact h)

theorem showUpdateEditor_events (m : updateManager) (w : World)
    (r : UpdateIntegratedServiceRequest) :
    ∀ ev ∈ (showUpdateEditor m w r).1, ev.isEditLoop = true := by
  have hA := askEditor_events (makeUpdateRequestValidator m.tospecValidator)
    (fun ev => ev.isEditLoop = true) (makeUpdateRequestValidator_events _) w.saves
  intro ev h
  unfold showUpdateEditor at h
  rcases hc : w.confirm with e | b
  · simp [hc] at h; subst h; rfl
  · cases b
    · simp [hc] at h; subst h; rfl
    · rcases hm : jsonMarshalIndent r.Spec with e | content
      · simp [hc, hm] at h; subst h; rfl
      · rcases ha : askEditor (makeUpdateRequestValidator m.tospecValidator) w.saves
          with ⟨evs, e | result⟩
        · simp [hc, hm, ha] at h
          rcases h with h | h | h
          · subst h; rfl
          · subst h; rfl
          · exact hA ev (by rw [ha]; exact h)
        · cases hj : jsonUnmarshal result r.Spec <;>
            simp [hc, hm, ha, hj] at h <;>
            rcases h with h | h | h
          · subst h; rfl
          · subst h; rfl
          · exact hA ev (by rw [ha]; exact h)
          · subst h; rfl
          · subst h; rfl
          · exact hA ev (by rw [ha]; exact h)

theorem submitActivate_events (w : World) (r : ActivateIntegratedServiceRequest) :
    ∀ ev ∈ (submitActivate w r).1, ev.isSubmission = true := by
  intro ev h
  unfold submitActivate at h
  cases hr : w.activateResult <;> simp [hr] at h
  · subst h; rfl
  · rcases h with h | h <;> (subst h; rfl)

theorem submitUpdate_events (w : World) (r : UpdateIntegratedServiceRequest) :
    ∀ ev ∈ (submitUpdate w r).1, ev.isSubmission = true := by
  intro ev h
  unfold submitUpdate at h
  rcases hr : w.updateResult with ⟨_ | resp, _ | e⟩ <;> simp [hr] at h
  · subst h; rfl
  · subst h; rfl
  · subst h; rfl
  · rcases h with h | h <;> (subst h; rfl)

/-! ## The claims -/

/-- C1 (code defect): the spec says that a request built interactively and edited has a
`Spec` that `ValidateSpec` accepts when it is submitted. Here the builder produces
`replicas = -1`, the operator deletes the entry in the editor and the validator accepts
the edited text; the request that reaches `ActivateIntegratedService` /
`UpdateIntegratedService` still holds `replicas = -1`, which `ValidateSpec` rejects. -/
theorem C1_submitted_spec_rejected_by_validator :
    (makeActivationRequestValidator replicasValidator (.json (.object [("spec", .object [])]))).2
      = none ∧
    runActivate (replicasActivateManager (some [("replicas", .number (-1))]))
        (sessionWorld true [.json (.object [("spec", .object [])])] .invalid none) ⟨""⟩
      = ([.isServiceEnabled, .optionsInit, .buildActivateRequestInteractively, .confirmPrompt,
          .editorPrompt (replicasDoc (-1)), .validateSpec (some []),
          .activateIntegratedService ⟨some [("replicas", .number (-1))]⟩], .returned none) ∧
    runUpdate replicasUpdateManager
        (sessionWorld true [.json (.object [("spec", .object [])])] .invalid
          (some [("replicas", .number (-1))])) ⟨""⟩
      = ([.isServiceEnabled, .optionsInit, .integratedServiceDetails,
          .buildUpdateRequestInteractively ⟨some [("replicas", .number (-1))]⟩, .confirmPrompt,
          .editorPrompt (replicasDoc (-1)), .validateSpec (some []),
          .updateIntegratedService ⟨some [("replicas", .number (-1))]⟩], .returned none) ∧
    replicasValidator.ValidateSpec (some [("replicas", .number (-1))])
      = some "replicas must be >= 0" := by
  refine ⟨rfl, rfl, rfl, rfl⟩

/-- C2 (code defect): the spec says that the accepted text replaces the working
document. Here the working request holds `replicas = 3` and `debug = true` and the
accepted text holds `replicas = 1` alone: parsed alone the text gives `replicas = 1`,
but the request `showActivateEditor` / `showUpdateEditor` leaves behind still holds
`debug = true`; and after the accepted text `{}` the whole `Spec` of the old request is
still there. -/
theorem C2_edited_text_merged_into_old_request :
    (makeActivationRequestValidator replicasValidator (replicasDoc 1)).2 = none ∧
    jsonUnmarshal (replicasDoc 1) none = .ok (some [("replicas", .number 1)]) ∧
    (showActivateEditor (replicasActivateManager none)
        (sessionWorld true [replicasDoc 1] .invalid none)
        ⟨some [("replicas", .number 3), ("debug", .bool true)]⟩).2
      = .ok ⟨some [("replicas", .number 1), ("debug", .bool true)]⟩ ∧
    (showUpdateEditor replicasUpdateManager
        (sessionWorld true [replicasDoc 1] .invalid none)
        ⟨some [("replicas", .number 3), ("debug", .bool true)]⟩).2
      = .ok ⟨some [("replicas", .number 1), ("debug", .bool true)]⟩ ∧
    (makeActivationRequestValidator replicasValidator (.json (.object []))).2 = none ∧
    jsonUnmarshal (.json (.object [])) none = .ok none ∧
    (showActivateEditor (replicasActivateManager none)
        (sessionWorld true [.json (.object [])] .invalid none)
        ⟨some [("replicas", .number 3)]⟩).2
      = .ok ⟨some [("replicas", .number 3)]⟩ := by
  refine ⟨rfl, rfl, rfl, rfl, rfl, rfl, rfl⟩

/-- C3: when the operator answers the confirm prompt with no, `showActivateEditor` and
`showUpdateEditor` return no error and leave the request as it was, and their only call
is the confirm prompt (no editor, no `ValidateSpec`); so an interactive run without a
file submits exactly the request the interactive builder produced. -/
theorem C3_declined_edit_leaves_request (ma : activateManager) (mu : updateManager) (w : World)
    (ra : ActivateIntegratedServiceRequest) (ru : UpdateIntegratedServiceRequest)
    (h : w.confirm = .ok false) :
    showActivateEditor ma w ra = ([.confirmPrompt], .ok ra) ∧
    showUpdateEditor mu w ru = ([.confirmPrompt], .ok ru) ∧
    (∀ oa : activateOptions, w.serviceEnabled = none → w.initResult = none →
      oa.filePath = "" → w.interactive = true → ma.BuildActivateRequestInteractively = .ok ra →
      runActivate ma w oa =
        ([.isServiceEnabled, .optionsInit, .buildActivateRequestInteractively, .confirmPrompt]
          ++ (submitActivate w ra).1, (submitActivate w ra).2) ∧
      (submitActivate w ra).1.head? = some (.activateIntegratedService ra)) ∧
    (∀ (ou : updateOptions) (spec : SpecMap), w.serviceEnabled = none → w.initResult = none →
      ou.filePath = "" → w.interactive = true → w.details = .ok spec →
      mu.BuildUpdateRequestInteractively ⟨spec⟩ = .ok ru →
      runUpdate mu w ou =
        ([.isServiceEnabled, .optionsInit, .integratedServiceDetails,
            .buildUpdateRequestInteractively ⟨spec⟩, .confirmPrompt]
          ++ (submitUpdate w ru).1, (submitUpdate w ru).2) ∧
      (submitUpdate w ru).1.head? = some (.updateIntegratedService ru)) := by
  have ha : showActivateEditor ma w ra = ([.confirmPrompt], .ok ra) := by
    simp [showActivateEditor, h]
  have hu : showUpdateEditor mu w ru = ([.confirmPrompt], .ok ru) := by
    simp [showUpdateEditor, h]
  refine ⟨ha, hu, ?_, ?_⟩
  · intro oa h1 h2 h3 h4 h5
    constructor
    · simp [runActivate, h1, h2, h3, h4, h5, ha]
    · unfold submitActivate; cases w.activateResult <;> rfl
  · intro ou spec h1 h2 h3 h4 h5 h6
    constructor
    · simp [runUpdate, h1, h2, h3, h4, h5, h6, hu]
    · unfold submitUpdate; rcases w.updateResult with ⟨_ | resp, _ | e⟩ <;> rfl

/-- Witness of C3: the builder produces `replicas = 3`, the operator declines the edit. -/
theorem C3_declined_edit_leaves_request_witness :
    (sessionWorld false [] .invalid none).confirm = .ok false ∧
    runActivate (replicasActivateManager (some [("replicas", .number 3)]))
        (sessionWorld false [] .invalid none) ⟨""⟩
      = ([.isServiceEnabled, .optionsInit, .buildActivateRequestInteractively, .confirmPrompt,
          .activateIntegratedService ⟨some [("replicas", .number 3)]⟩], .returned none) :=
  ⟨rfl, ((C3_declined_edit_leaves_request
    (replicasActivateManager (some [("replicas", .number 3)])) replicasUpdateManager
    (sessionWorld false [] .invalid none) ⟨some [("replicas", .number 3)]⟩ ⟨none⟩ rfl).2.2.1
      ⟨""⟩ rfl rfl rfl rfl rfl).1⟩

/-- C4: when the document comes from a file or from standard input (file path not empty,
or session not interactive), `runActivate` and `runUpdate` never call `ValidateSpec`,
the only request they submit is the input parsed into a fresh request, and they do
submit it once the prerequisite check, the option initialisation and the read have
succeeded. -/
theorem C4_file_input_not_validated (ma : activateManager) (mu : updateManager) (w : World)
    (oa : activateOptions) (ou : updateOptions)
    (ha : ¬ (oa.filePath = "" ∧ w.interactive = true))
    (hu : ¬ (ou.filePath = "" ∧ w.interactive = true)) :
    (∀ s, Event.validateSpec s ∉ (runActivate ma w oa).1) ∧
    (∀ r, Event.activateIntegratedService r ∈ (runActivate ma w oa).1 →
      ∃ t, w.input = .ok t ∧ jsonUnmarshal t none = .ok r.Spec) ∧
    (∀ t s, w.serviceEnabled = none → w.initResult = none → w.input = .ok t →
      jsonUnmarshal t none = .ok s →
      Event.activateIntegratedService ⟨s⟩ ∈ (runActivate ma w oa).1) ∧
    (∀ s, Event.validateSpec s ∉ (runUpdate mu w ou).1) ∧
    (∀ r, Event.updateIntegratedService r ∈ (runUpdate mu w ou).1 →
      ∃ t, w.input = .ok t ∧ jsonUnmarshal t none = .ok r.Spec) ∧
    (∀ t s, w.serviceEnabled = none → w.initResult = none → w.input = .ok t →
      jsonUnmarshal t none = .ok s →
      Event.updateIntegratedService ⟨s⟩ ∈ (runUpdate mu w ou).1) := by
  refine ⟨?_, ?_, ?_, ?_, ?_, ?_⟩
  · intro s
    unfold runActivate readActivateReqFromFileOrStdin submitActivate
    rw [if_neg ha]
    rcases w.serviceEnabled with _ | e <;> rcases w.initResult with _ | e' <;>
      rcases w.input with e'' | t <;> try simp
    cases jsonUnmarshal t none <;> simp
    cases w.activateResult <;> simp
  · intro r
    unfold runActivate readActivateReqFromFileOrStdin submitActivate
    rw [if_neg ha]
    rcases w.serviceEnabled with _ | e <;> rcases w.initResult with _ | e' <;>
      rcases w.input with e'' | t <;> try simp
    cases hj : jsonUnmarshal t none <;> simp
    cases w.activateResult <;> simp <;> intro h <;> subst h <;> rfl
  · intro t s h1 h2 h3 h4
    unfold runActivate readActivateReqFromFileOrStdin submitActivate
    rw [if_neg ha]
    simp [h1, h2, h3, h4]
    cases w.activateResult <;> simp
  · intro s
    unfold runUpdate readUpdateReqFromFileOrStdin submitUpdate
    rw [if_neg hu]
    rcases w.serviceEnabled with _ | e <;> rcases w.initResult with _ | e' <;>
      rcases w.input with e'' | t <;> try simp
    cases jsonUnmarshal t none <;> simp
    rcases w.updateResult with ⟨_ | resp, _ | e⟩ <;> simp
  · intro r
    unfold runUpdate readUpdateReqFromFileOrStdin submitUpdate
    rw [if_neg hu]
    rcases w.serviceEnabled with _ | e <;> rcases w.initResult with _ | e' <;>
      rcases w.input with e'' | t <;> try simp
    cases hj : jsonUnmarshal t none <;> simp
    rcases w.updateResult with ⟨_ | resp, _ | e⟩ <;> simp <;> intro h <;> subst h <;> rfl
  · intro t s h1 h2 h3 h4
    unfold runUpdate readUpdateReqFromFileOrStdin submitUpdate
    rw [if_neg hu]
    simp [h1, h2, h3, h4]
    rcases w.updateResult with ⟨_ | resp, _ | e⟩ <;> simp

/-- Witness of C4: the file `req.json` holds `replicas = -1`, which the validator of the
manager would reject; it is submitted as read. -/
theorem C4_file_input_not_validated_witness :
    ¬ ((activateOptions.mk "req.json").filePath = "" ∧
        (sessionWorld true [] (replicasDoc (-1)) none).interactive = true) ∧
    ¬ ((updateOptions.mk "req.json").filePath = "" ∧
        (sessionWorld true [] (replicasDoc (-1)) none).interactive = true) ∧
    Event.activateIntegratedService ⟨some [("replicas", .number (-1))]⟩ ∈
      (runActivate (replicasActivateManager none)
        (sessionWorld true [] (replicasDoc (-1)) none) ⟨"req.json"⟩).1 :=
  ⟨by decide, by decide,
    (C4_file_input_not_validated (replicasActivateManager none) replicasUpdateManager
      (sessionWorld true [] (replicasDoc (-1)) none) ⟨"req.json"⟩ ⟨"req.json"⟩
      (by decide) (by decide)).2.2.1 (replicasDoc (-1)) (some [("replicas", .number (-1))])
      rfl rfl rfl rfl⟩

/-- Storing into a map an entry it already holds leaves the map as it is. -/
theorem mapInsert_mem (k : String) (v : GoValue) :
    ∀ acc : List (String × GoValue), WFMembers acc → (k, v) ∈ acc → mapInsert k v acc = acc
  | [], _, h => by simp at h
  | (k', v') :: rest, hwf, h => by
    have hwf' : v'.WF ∧ (∀ p ∈ rest, p.1 ≠ k') ∧ WFMembers rest := by simpa [WFMembers] using hwf
    by_cases hk : k' = k
    · subst hk
      rcases List.mem_cons.1 h with h | h
      · have hv : v = v' := (Prod.mk.inj h).2
        subst hv
        simp [mapInsert]
      · exact absurd rfl (hwf'.2.1 _ h)
    · have hr : (k, v) ∈ rest := by
        rcases List.mem_cons.1 h with h | h
        · exact absurd (Prod.mk.inj h).1.symm hk
        · exact h
      simp [mapInsert, hk, mapInsert_mem k v rest hwf'.2.2 hr]

/-- Decoding into a map the members written for entries that it already holds leaves the
map as it is. -/
theorem toGoMembers_self (acc : List (String × GoValue)) (hacc : WFMembers acc) :
    ∀ (ms : List (String × GoValue)) (js : List (String × JValue)), Encodes ms js →
      (∀ p ∈ ms, p ∈ acc) → toGoMembers acc js = .ok acc
  | [], js, he, _ => by
    cases he
    simp [toGoMembers]
  | (k, v) :: ms, js, he, h => by
    cases he with
    | cons hj hrest =>
      rename_i j js'
      obtain ⟨kj, vj⟩ := j
      obtain ⟨hk, hv⟩ := hj
      simp only at hk hv
      subst hk
      have hm : (kj, v) ∈ acc := h (kj, v) (List.mem_cons_self _ _)
      simp only [toGoMembers, hv, mapInsert_mem kj v acc hacc hm]
      exact toGoMembers_self acc hacc ms js' hrest (fun p hp => h p (List.mem_cons_of_mem _ hp))

/-- C5 (counterexample): a request whose `Spec` holds the Go integer 9007199254740993 is
rendered with that number, and the rendered text parses back to the float64
9007199254740992, a different document; a `Spec` that holds a `[]string` parses back
with a `[]interface{}` in its place; a request whose `Spec` holds a value without a
JSON form (NaN) is not rendered at all, and the editor returns the marshal error. -/
theorem C5_round_trip_changes_or_fails :
    jsonMarshalIndent (some [("n", .int 9007199254740993)])
      = .ok (.json (.object [("spec", .object [("n", .number 9007199254740993)])])) ∧
    jsonUnmarshal (.json (.object [("spec", .object [("n", .number 9007199254740993)])])) none
      = .ok (some [("n", .number 9007199254740992)]) ∧
    (some [("n", GoValue.number 9007199254740992)] : SpecMap)
      ≠ some [("n", .int 9007199254740993)] ∧
    jsonMarshalIndent (some [("hosts", .typed (.array [.string "a"]))])
      = .ok (.json (.object [("spec", .object [("hosts", .array [.string "a"])])])) ∧
    jsonUnmarshal (.json (.object [("spec", .object [("hosts", .array [.string "a"])])])) none
      = .ok (some [("hosts", .array [.string "a"])]) ∧
    jsonMarshalIndent (some [("x", .unsupported)]) = .error "json: unsupported value" ∧
    showActivateEditor (replicasActivateManager none) (sessionWorld true [] .invalid none)
        ⟨some [("x", .unsupported)]⟩
      = ([.confirmPrompt],
          .error "failed to marshal request to JSON: json: unsupported value") := by
  refine ⟨rfl, rfl, ?_, rfl, rfl, rfl, rfl⟩
  simp

/-- C5 (amended): for a request document whose `Spec` holds only values of the kinds
`encoding/json` itself stores (nil, booleans, float64 numbers, strings, `[]interface{}`
and `map[string]interface{}` of such), rendering it with `json.MarshalIndent` succeeds,
and parsing the rendered text back with `json.Unmarshal`, unchanged, succeeds and gives
a document equal to the original: parsed into a fresh request, and also parsed over the
request itself, as the editor path does. -/
theorem C5_render_parse_round_trip (spec : SpecMap) (h : spec.WF) :
    ∃ t, jsonMarshalIndent spec = .ok t ∧
      (jsonUnmarshal t (ActivateIntegratedServiceRequest.mk none).Spec).map
          ActivateIntegratedServiceRequest.mk = .ok ⟨spec⟩ ∧
      (jsonUnmarshal t (UpdateIntegratedServiceRequest.mk none).Spec).map
          UpdateIntegratedServiceRequest.mk = .ok ⟨spec⟩ ∧
      jsonUnmarshal t spec = .ok spec := by
  have hk : isSpecKey "spec" = true := by decide
  cases spec with
  | none =>
    exact ⟨_, rfl, by simp [jsonUnmarshal, storeFields, storeSpec, hk, Except.map]⟩
  | some m =>
    have hm : WFMembers m := h
    obtain ⟨js, h1, h2⟩ := toJSONMembers_encodes m hm
    have h3 : toGoMembers [] js = .ok m := by
      simpa using toGoMembers_fresh m hm js h2 [] (by simp)
    have h4 : toGoMembers m js = .ok m := toGoMembers_self m hm m js h2 (fun _ hp => hp)
    refine ⟨.json (.object [("spec", .object js)]), by simp [jsonMarshalIndent, h1], ?_⟩
    simp [jsonUnmarshal, storeFields, storeSpec, hk, Except.map, h3, h4]

/-- Witness of C5: the document with `replicas = 3`, `ratio = 1.5` and a nested
object. -/
theorem C5_render_parse_round_trip_witness :
    SpecMap.WF (some [("replicas", .number 3), ("ratio", .decimal 15 1),
      ("ingress", .object [("enabled", .bool true), ("hosts", .array [.string "a"])])]) ∧
    ∃ t, jsonMarshalIndent (some [("replicas", .number 3), ("ratio", .decimal 15 1),
          ("ingress", .object [("enabled", .bool true), ("hosts", .array [.string "a"])])])
        = .ok t ∧
      (jsonUnmarshal t (ActivateIntegratedServiceRequest.mk none).Spec).map
          ActivateIntegratedServiceRequest.mk
        = .ok ⟨some [("replicas", .number 3), ("ratio", .decimal 15 1),
            ("ingress", .object [("enabled", .bool true), ("hosts", .array [.string "a"])])]⟩ ∧
      (jsonUnmarshal t (UpdateIntegratedServiceRequest.mk none).Spec).map
          UpdateIntegratedServiceRequest.mk
        = .ok ⟨some [("replicas", .number 3), ("ratio", .decimal 15 1),
            ("ingress", .object [("enabled", .bool true), ("hosts", .array [.string "a"])])]⟩ ∧
      jsonUnmarshal t (some [("replicas", .number 3), ("ratio", .decimal 15 1),
          ("ingress", .object [("enabled", .bool true), ("hosts", .array [.string "a"])])])
        = .ok (some [("replicas", .number 3), ("ratio", .decimal 15 1),
            ("ingress", .object [("enabled", .bool true), ("hosts", .array [.string "a"])])]) :=
  have hwf : SpecMap.WF (some [("replicas", .number 3), ("ratio", .decimal 15 1),
      ("ingress", .object [("enabled", .bool true), ("hosts", .array [.string "a"])])]) := by
    simp [SpecMap.WF, WFMembers, GoValue.WF, WFList]
    exact ⟨rfl, rfl⟩
  ⟨hwf, C5_render_parse_round_trip _ hwf⟩

/-- The editor with an operator who agreed to edit and a request that renders: it
returns the first saved text the validator accepts, parsed into the request. -/
theorem showActivateEditor_first_accepted (m : activateManager) (w : World)
    (r : ActivateIntegratedServiceRequest) (h : w.confirm = .ok true)
    (pre : List Text) (t : Text) (post : List Text) (content : Text)
    (hm : jsonMarshalIndent r.Spec = .ok content) (hs : w.saves = pre ++ t :: post)
    (hpre : ∀ x ∈ pre, (makeActivationRequestValidator m.tospecValidator x).2 ≠ none)
    (ht : (makeActivationRequestValidator m.tospecValidator t).2 = none) :
    ∃ s, jsonUnmarshal t r.Spec = .ok s ∧ (showActivateEditor m w r).2 = .ok ⟨s⟩ := by
  have ha := askEditor_first (makeActivationRequestValidator m.tospecValidator) t post ht pre hpre
  rw [← hs] at ha
  have hparse : ∃ s0, jsonUnmarshal t none = .ok s0 := by
    unfold makeActivationRequestValidator at ht
    cases hj : jsonUnmarshal t none with
    | error e => simp [hj, wrapIf] at ht
    | ok s0 => exact ⟨s0, rfl⟩
  obtain ⟨s0, hs0⟩ := hparse
  obtain ⟨s, hs1⟩ := jsonUnmarshal_ok_of_ok t none r.Spec s0 hs0
  refine ⟨s, hs1, ?_⟩
  unfold showActivateEditor
  rcases hq : askEditor (makeActivationRequestValidator m.tospecValidator) w.saves
    with ⟨evs, res⟩
  rw [hq] at ha
  simp only at ha
  subst ha
  simp [h, hm, hq, hs1]

/-- The editor with an operator who agreed to edit fails while the validator rejects
every saved text. -/
theorem showActivateEditor_all_rejected (m : activateManager) (w : World)
    (r : ActivateIntegratedServiceRequest) (h : w.confirm = .ok true)
    (hall : ∀ x ∈ w.saves, (makeActivationRequestValidator m.tospecValidator x).2 ≠ none) :
    ∃ e, (showActivateEditor m w r).2 = .error e := by
  have ha := askEditor_rejected (makeActivationRequestValidator m.tospecValidator) w.saves hall
  unfold showActivateEditor
  rcases hq : askEditor (makeActivationRequestValidator m.tospecValidator) w.saves
    with ⟨evs, res⟩
  rw [hq] at ha
  simp only at ha
  subst ha
  cases hm : jsonMarshalIndent r.Spec <;> simp [h, hm, hq]

/-- The editor with an operator who agreed to edit: the request it leaves behind comes
from parsing the first saved text the validator accepts. -/
theorem showActivateEditor_ok_first (m : activateManager) (w : World)
    (r r' : ActivateIntegratedServiceRequest) (h : w.confirm = .ok true)
    (hr : (showActivateEditor m w r).2 = .ok r') :
    ∃ pre t post, w.saves = pre ++ t :: post ∧
      (∀ x ∈ pre, (makeActivationRequestValidator m.tospecValidator x).2 ≠ none) ∧
      (makeActivationRequestValidator m.tospecValidator t).2 = none ∧
      jsonUnmarshal t r.Spec = .ok r'.Spec := by
  unfold showActivateEditor at hr
  cases hm : jsonMarshalIndent r.Spec with
  | error e => simp [h, hm] at hr
  | ok content =>
    rcases hq : askEditor (makeActivationRequestValidator m.tospecValidator) w.saves
      with ⟨evs, e | result⟩
    · simp [h, hm, hq] at hr
    · have hok : (askEditor (makeActivationRequestValidator m.tospecValidator) w.saves).2
          = .ok result := by rw [hq]
      obtain ⟨pre, post, h1, h2, h3⟩ := askEditor_ok _ result w.saves hok
      cases hj : jsonUnmarshal result r.Spec with
      | error e => simp [h, hm, hq, hj] at hr
      | ok s =>
        simp [h, hm, hq, hj] at hr
        subst hr
        exact ⟨pre, result, post, h1, h2, h3, hj⟩

/-- The editor with an operator who agreed to edit and a request that renders: it
returns the first saved text the validator accepts, parsed into the request. -/
theorem showUpdateEditor_first_accepted (m : updateManager) (w : World)
    (r : UpdateIntegratedServiceRequest) (h : w.confirm = .ok true)
    (pre : List Text) (t : Text) (post : List Text) (content : Text)
    (hm : jsonMarshalIndent r.Spec = .ok content) (hs : w.saves = pre ++ t :: post)
    (hpre : ∀ x ∈ pre, (makeUpdateRequestValidator m.tospecValidator x).2 ≠ none)
    (ht : (makeUpdateRequestValidator m.tospecValidator t).2 = none) :
    ∃ s, jsonUnmarshal t r.Spec = .ok s ∧ (showUpdateEditor m w r).2 = .ok ⟨s⟩ := by
  have ha := askEditor_first (makeUpdateRequestValidator m.tospecValidator) t post ht pre hpre
  rw [← hs] at ha
  have hparse : ∃ s0, jsonUnmarshal t none = .ok s0 := by
    unfold makeUpdateRequestValidator at ht
    cases hj : jsonUnmarshal t none with
    | error e => simp [hj, wrapIf] at ht
    | ok s0 => exact ⟨s0, rfl⟩
  obtain ⟨s0, hs0⟩ := hparse
  obtain ⟨s, hs1⟩ := jsonUnmarshal_ok_of_ok t none r.Spec s0 hs0
  refine ⟨s, hs1, ?_⟩
  unfold showUpdateEditor
  rcases hq : askEditor (makeUpdateRequestValidator m.tospecValidator) w.saves
    with ⟨evs, res⟩
  rw [hq] at ha
  simp only at ha
  subst ha
  simp [h, hm, hq, hs1]

/-- The editor with an operator who agreed to edit fails while the validator rejects
every saved text. -/
theorem showUpdateEditor_all_rejected (m : updateManager) (w : World)
    (r : UpdateIntegratedServiceRequest) (h : w.confirm = .ok true)
    (hall : ∀ x ∈ w.saves, (makeUpdateRequestValidator m.tospecValidator x).2 ≠ none) :
    ∃ e, (showUpdateEditor m w r).2 = .error e := by
  have ha := askEditor_rejected (makeUpdateRequestValidator m.tospecValidator) w.saves hall
  unfold showUpdateEditor
  rcases hq : askEditor (makeUpdateRequestValidator m.tospecValidator) w.saves
    with ⟨evs, res⟩
  rw [hq] at ha
  simp only at ha
  subst ha
  cases hm : jsonMarshalIndent r.Spec <;> simp [h, hm, hq]

/-- The editor with an operator who agreed to edit: the request it leaves behind comes
from parsing the first saved text the validator accepts. -/
theorem showUpdateEditor_ok_first (m : updateManager) (w : World)
    (r r' : UpdateIntegratedServiceRequest) (h : w.confirm = .ok true)
    (hr : (showUpdateEditor m w r).2 = .ok r') :
    ∃ pre t post, w.saves = pre ++ t :: post ∧
      (∀ x ∈ pre, (makeUpdateRequestValidator m.tospecValidator x).2 ≠ none) ∧
      (makeUpdateRequestValidator m.tospecValidator t).2 = none ∧
      jsonUnmarshal t r.Spec = .ok r'.Spec := by
  unfold showUpdateEditor at hr
  cases hm : jsonMarshalIndent r.Spec with
  | error e => simp [h, hm] at hr
  | ok content =>
    rcases hq : askEditor (makeUpdateRequestValidator m.tospecValidator) w.saves
      with ⟨evs, e | result⟩
    · simp [h, hm, hq] at hr
    · have hok : (askEditor (makeUpdateRequestValidator m.tospecValidator) w.saves).2
          = .ok result := by rw [hq]
      obtain ⟨pre, post, h1, h2, h3⟩ := askEditor_ok _ result w.saves hok
      cases hj : jsonUnmarshal result r.Spec with
      | error e => simp [h, hm, hq, hj] at hr
      | ok s =>
        simp [h, hm, hq, hj] at hr
        subst hr
        exact ⟨pre, result, post, h1, h2, h3, hj⟩

/-- What an interactive `runActivate` without a file submits, after the checks and the
builder: exactly the request the editor leaves behind, when it leaves one. -/
theorem runActivate_interactive_submits (m : activateManager) (w : World) (o : activateOptions)
    (r : ActivateIntegratedServiceRequest)
    (h1 : w.serviceEnabled = none) (h2 : w.initResult = none)
    (hc : o.filePath = "" ∧ w.interactive = true)
    (hb : m.BuildActivateRequestInteractively = .ok r) (r' : ActivateIntegratedServiceRequest) :
    Event.activateIntegratedService r' ∈ (runActivate m w o).1 ↔
      (showActivateEditor m w r).2 = .ok r' := by
  have he := showActivateEditor_events m w r
  unfold runActivate
  simp only [h1, h2, hb]
  rw [if_pos hc]
  rcases hs : showActivateEditor m w r with ⟨evs, e | edited⟩
  · rw [hs] at he
    simp only [List.mem_append, List.mem_cons, List.mem_singleton, List.not_mem_nil,
      false_or, or_false, reduceCtorEq]
    constructor
    · intro hmem
      have := he _ hmem
      simp [Event.isEditLoop] at this
    · intro hh; cases hh
  · rw [hs] at he
    have hsub : ∀ x, Event.activateIntegratedService x ∈ (submitActivate w edited).1 ↔
        x = edited := by
      intro x
      unfold submitActivate
      cases w.activateResult <;> simp
    simp only [List.mem_append, List.mem_cons, List.mem_singleton, List.not_mem_nil,
      false_or, or_false, reduceCtorEq, hsub, Except.ok.injEq]
    constructor
    · rintro (hmem | hmem)
      · have := he _ hmem
        simp [Event.isEditLoop] at this
      · exact hmem.symm
    · intro hh; exact Or.inr hh.symm

/-- What an interactive `runUpdate` without a file submits, after the checks, the
details fetch and the builder: exactly the request the editor leaves behind, when it
leaves one. -/
theorem runUpdate_interactive_submits (m : updateManager) (w : World) (o : updateOptions)
    (spec : SpecMap) (r : UpdateIntegratedServiceRequest)
    (h1 : w.serviceEnabled = none) (h2 : w.initResult = none)
    (hc : o.filePath = "" ∧ w.interactive = true) (hd : w.details = .ok spec)
    (hb : m.BuildUpdateRequestInteractively ⟨spec⟩ = .ok r) (r' : UpdateIntegratedServiceRequest) :
    Event.updateIntegratedService r' ∈ (runUpdate m w o).1 ↔
      (showUpdateEditor m w r).2 = .ok r' := by
  have he := showUpdateEditor_events m w r
  unfold runUpdate
  simp only [h1, h2, hd, hb]
  rw [if_pos hc]
  rcases hs : showUpdateEditor m w r with ⟨evs, e | edited⟩
  · rw [hs] at he
    simp only [List.mem_append, List.mem_cons, List.mem_singleton, List.not_mem_nil,
      false_or, or_false, reduceCtorEq]
    constructor
    · intro hmem
      have := he _ hmem
      simp [Event.isEditLoop] at this
    · intro hh; cases hh
  · rw [hs] at he
    have hsub : ∀ x, Event.updateIntegratedService x ∈ (submitUpdate w edited).1 ↔
        x = edited := by
      intro x
      unfold submitUpdate
      rcases w.updateResult with ⟨_ | resp, _ | e⟩ <;> simp
    simp only [List.mem_append, List.mem_cons, List.mem_singleton, List.not_mem_nil,
      false_or, or_false, reduceCtorEq, hsub, Except.ok.injEq]
    constructor
    · rintro (hmem | hmem)
      · have := he _ hmem
        simp [Event.isEditLoop] at this
      · exact hmem.symm
    · intro hh; exact Or.inr hh.symm

/-- C6: once the operator has agreed to edit and the editor has opened on the rendered
request, the edit loop completes with the first saved text that the request validator
accepts (its final parse cannot fail), and the run submits exactly the request parsed
from that text; while every saved text is rejected the loop does not complete and the
run submits nothing; and whatever the loop leaves behind, and whatever the run
submits, comes from parsing the first accepted text, so a rejected text is never parsed
into the working request and never reaches submission. -/
theorem C6_edit_loop_first_accepted_text (w : World) (h : w.confirm = .ok true) :
    (∀ (m : activateManager) (r : ActivateIntegratedServiceRequest),
      (∀ pre t post content, jsonMarshalIndent r.Spec = .ok content →
        w.saves = pre ++ t :: post →
        (∀ x ∈ pre, (makeActivationRequestValidator m.tospecValidator x).2 ≠ none) →
        (makeActivationRequestValidator m.tospecValidator t).2 = none →
        ∃ s, jsonUnmarshal t r.Spec = .ok s ∧ (showActivateEditor m w r).2 = .ok ⟨s⟩ ∧
          ∀ (o : activateOptions), w.serviceEnabled = none → w.initResult = none →
            o.filePath = "" → w.interactive = true →
            m.BuildActivateRequestInteractively = .ok r →
            ∀ r', Event.activateIntegratedService r' ∈ (runActivate m w o).1 ↔ r' = ⟨s⟩) ∧
      ((∀ x ∈ w.saves, (makeActivationRequestValidator m.tospecValidator x).2 ≠ none) →
        (∃ e, (showActivateEditor m w r).2 = .error e) ∧
          ∀ (o : activateOptions), w.serviceEnabled = none → w.initResult = none →
            o.filePath = "" → w.interactive = true →
            m.BuildActivateRequestInteractively = .ok r →
            ∀ r', Event.activateIntegratedService r' ∉ (runActivate m w o).1) ∧
      (∀ r', (showActivateEditor m w r).2 = .ok r' →
        ∃ pre t post, w.saves = pre ++ t :: post ∧
          (∀ x ∈ pre, (makeActivationRequestValidator m.tospecValidator x).2 ≠ none) ∧
          (makeActivationRequestValidator m.tospecValidator t).2 = none ∧
          jsonUnmarshal t r.Spec = .ok r'.Spec) ∧
      (∀ (o : activateOptions) r', w.serviceEnabled = none → w.initResult = none →
        o.filePath = "" → w.interactive = true →
        m.BuildActivateRequestInteractively = .ok r →
        Event.activateIntegratedService r' ∈ (runActivate m w o).1 →
        ∃ pre t post, w.saves = pre ++ t :: post ∧
          (∀ x ∈ pre, (makeActivationRequestValidator m.tospecValidator x).2 ≠ none) ∧
          (makeActivationRequestValidator m.tospecValidator t).2 = none ∧
          jsonUnmarshal t r.Spec = .ok r'.Spec)) ∧
    (∀ (m : updateManager) (r : UpdateIntegratedServiceRequest),
      (∀ pre t post content, jsonMarshalIndent r.Spec = .ok content →
        w.saves = pre ++ t :: post →
        (∀ x ∈ pre, (makeUpdateRequestValidator m.tospecValidator x).2 ≠ none) →
        (makeUpdateRequestValidator m.tospecValidator t).2 = none →
        ∃ s, jsonUnmarshal t r.Spec = .ok s ∧ (showUpdateEditor m w r).2 = .ok ⟨s⟩ ∧
          ∀ (o : updateOptions) (spec : SpecMap), w.serviceEnabled = none → w.initResult = none →
            o.filePath = "" → w.interactive = true → w.details = .ok spec →
            m.BuildUpdateRequestInteractively ⟨spec⟩ = .ok r →
            ∀ r', Event.updateIntegratedService r' ∈ (runUpdate m w o).1 ↔ r' = ⟨s⟩) ∧
      ((∀ x ∈ w.saves, (makeUpdateRequestValidator m.tospecValidator x).2 ≠ none) →
        (∃ e, (showUpdateEditor m w r).2 = .error e) ∧
          ∀ (o : updateOptions) (spec : SpecMap), w.serviceEnabled = none → w.initResult = none →
            o.filePath = "" → w.interactive = true → w.details = .ok spec →
            m.BuildUpdateRequestInteractively ⟨spec⟩ = .ok r →
            ∀ r', Event.updateIntegratedService r' ∉ (runUpdate m w o).1) ∧
      (∀ r', (showUpdateEditor m w r).2 = .ok r' →
        ∃ pre t post, w.saves = pre ++ t :: post ∧
          (∀ x ∈ pre, (makeUpdateRequestValidator m.tospecValidator x).2 ≠ none) ∧
          (makeUpdateRequestValidator m.tospecValidator t).2 = none ∧
          jsonUnmarshal t r.Spec = .ok r'.Spec) ∧
      (∀ (o : updateOptions) (spec : SpecMap) r', w.serviceEnabled = none → w.initResult = none →
        o.filePath = "" → w.interactive = true → w.details = .ok spec →
        m.BuildUpdateRequestInteractively ⟨spec⟩ = .ok r →
        Event.updateIntegratedService r' ∈ (runUpdate m w o).1 →
        ∃ pre t post, w.saves = pre ++ t :: post ∧
          (∀ x ∈ pre, (makeUpdateRequestValidator m.tospecValidator x).2 ≠ none) ∧
          (makeUpdateRequestValidator m.tospecValidator t).2 = none ∧
          jsonUnmarshal t r.Spec = .ok r'.Spec)) := by
  constructor
  · intro m r
    refine ⟨?_, ?_, ?_, ?_⟩
    · intro pre t post content hm hs hpre ht
      obtain ⟨s, h1, h2⟩ :=
        showActivateEditor_first_accepted m w r h pre t post content hm hs hpre ht
      refine ⟨s, h1, h2, ?_⟩
      intro o c1 c2 c3 c4 hb r'
      rw [runActivate_interactive_submits m w o r c1 c2 ⟨c3, c4⟩ hb r', h2]
      simp only [Except.ok.injEq]
      exact eq_comm
    · intro hall
      obtain ⟨e, he⟩ := showActivateEditor_all_rejected m w r h hall
      refine ⟨⟨e, he⟩, ?_⟩
      intro o c1 c2 c3 c4 hb r'
      rw [runActivate_interactive_submits m w o r c1 c2 ⟨c3, c4⟩ hb r', he]
      simp
    · intro r' hr
      exact showActivateEditor_ok_first m w r r' h hr
    · intro o r' c1 c2 c3 c4 hb hmem
      rw [runActivate_interactive_submits m w o r c1 c2 ⟨c3, c4⟩ hb r'] at hmem
      exact showActivateEditor_ok_first m w r r' h hmem
  · intro m r
    refine ⟨?_, ?_, ?_, ?_⟩
    · intro pre t post content hm hs hpre ht
      obtain ⟨s, h1, h2⟩ :=
        showUpdateEditor_first_accepted m w r h pre t post content hm hs hpre ht
      refine ⟨s, h1, h2, ?_⟩
      intro o spec c1 c2 c3 c4 hd hb r'
      rw [runUpdate_interactive_submits m w o spec r c1 c2 ⟨c3, c4⟩ hd hb r', h2]
      simp only [Except.ok.injEq]
      exact eq_comm
    · intro hall
      obtain ⟨e, he⟩ := showUpdateEditor_all_rejected m w r h hall
      refine ⟨⟨e, he⟩, ?_⟩
      intro o spec c1 c2 c3 c4 hd hb r'
      rw [runUpdate_interactive_submits m w o spec r c1 c2 ⟨c3, c4⟩ hd hb r', he]
      simp
    · intro r' hr
      exact showUpdateEditor_ok_first m w r r' h hr
    · intro o spec r' c1 c2 c3 c4 hd hb hmem
      rw [runUpdate_interactive_submits m w o spec r c1 c2 ⟨c3, c4⟩ hd hb r'] at hmem
      exact showUpdateEditor_ok_first m w r r' h hmem

/-- Witness of C6: the builder produces `replicas = 3`; the operator first saves
`replicas = -1`, which the validator rejects, then `replicas = 1`; the loop completes
with `replicas = 1` and the run submits `replicas = 1` and nothing else. -/
theorem C6_edit_loop_first_accepted_text_witness :
    (sessionWorld true [replicasDoc (-1), replicasDoc 1] .invalid none).confirm = .ok true ∧
    ∃ s, jsonUnmarshal (replicasDoc 1) (some [("replicas", .number 3)]) = .ok s ∧
      (showActivateEditor (replicasActivateManager (some [("replicas", .number 3)]))
        (sessionWorld true [replicasDoc (-1), replicasDoc 1] .invalid none)
        ⟨some [("replicas", .number 3)]⟩).2 = .ok ⟨s⟩ ∧
      ∀ r', Event.activateIntegratedService r' ∈
          (runActivate (replicasActivateManager (some [("replicas", .number 3)]))
            (sessionWorld true [replicasDoc (-1), replicasDoc 1] .invalid none) ⟨""⟩).1 ↔
        r' = ⟨s⟩ :=
  ⟨rfl, by
    obtain ⟨s, h1, h2, h3⟩ := ((C6_edit_loop_first_accepted_text
      (sessionWorld true [replicasDoc (-1), replicasDoc 1] .invalid none) rfl).1
      (replicasActivateManager (some [("replicas", .number 3)]))
      ⟨some [("replicas", .number 3)]⟩).1
      [replicasDoc (-1)] (replicasDoc 1) [] (replicasDoc 3) rfl rfl (by decide) (by decide)
    exact ⟨s, h1, h2, h3 ⟨""⟩ rfl rfl rfl rfl rfl⟩⟩

/-- C7: when the service-enabled check returns an error, `runActivate` and `runUpdate`
return a non-nil error and the check is the only call they make: no option
initialisation, no details fetch, no builder, no reader, no edit loop, no API call. -/
theorem C7_disabled_service_stops_run (ma : activateManager) (mu : updateManager) (w : World)
    (oa : activateOptions) (ou : updateOptions) (e : GoError) (h : w.serviceEnabled = some e) :
    runActivate ma w oa
      = ([.isServiceEnabled], .returned (some ("failed to check service: " ++ e))) ∧
    runUpdate mu w ou
      = ([.isServiceEnabled], .returned (some ("failed to check service: " ++ e))) := by
  simp [runActivate, runUpdate, h, wrapIf]

/-- Witness of C7: the service is not enabled and a file is given. -/
theorem C7_disabled_service_stops_run_witness :
    (disabledWorld (replicasDoc 1)).serviceEnabled = some "service not enabled" ∧
    runActivate (replicasActivateManager none) (disabledWorld (replicasDoc 1)) ⟨"req.json"⟩
      = ([.isServiceEnabled],
          .returned (some ("failed to check service: " ++ "service not enabled"))) ∧
    runUpdate replicasUpdateManager (disabledWorld (replicasDoc 1)) ⟨"req.json"⟩
      = ([.isServiceEnabled],
          .returned (some ("failed to check service: " ++ "service not enabled"))) :=
  ⟨rfl, C7_disabled_service_stops_run _ _ _ _ _ _ rfl⟩

/-- The shape of an interactive `runActivate` without a file, after the checks: the
builder, then calls of the edit loop and the submission step only. -/
theorem runActivate_interactive_trace (m : activateManager) (w : World) (o : activateOptions)
    (h1 : w.serviceEnabled = none) (h2 : w.initResult = none)
    (hc : o.filePath = "" ∧ w.interactive = true) :
    ∃ rest, (runActivate m w o).1
        = [.isServiceEnabled, .optionsInit, .buildActivateRequestInteractively] ++ rest ∧
      ∀ ev ∈ rest, ev.isEditLoop = true ∨ ev.isSubmission = true := by
  unfold runActivate
  simp only [h1, h2]
  rw [if_pos hc]
  rcases hb : m.BuildActivateRequestInteractively with e | request
  · exact ⟨[], rfl, by simp⟩
  · have he := showActivateEditor_events m w request
    rcases hs : showActivateEditor m w request with ⟨evs, e | edited⟩
    · rw [hs] at he
      exact ⟨evs, by simp [hs], fun ev hev => Or.inl (he ev hev)⟩
    · rw [hs] at he
      refine ⟨evs ++ (submitActivate w edited).1, by simp [hs], ?_⟩
      intro ev hev
      rcases List.mem_append.1 hev with hev | hev
      · exact Or.inl (he ev hev)
      · exact Or.inr (submitActivate_events w edited ev hev)

/-- The shape of a `runActivate` on the file / standard input path, after the checks:
the reader, then calls of the submission step only. -/
theorem runActivate_file_trace (m : activateManager) (w : World) (o : activateOptions)
    (h1 : w.serviceEnabled = none) (h2 : w.initResult = none)
    (hc : ¬ (o.filePath = "" ∧ w.interactive = true)) :
    ∃ rest, (runActivate m w o).1
        = [.isServiceEnabled, .optionsInit, .readFileOrStdin o.filePath] ++ rest ∧
      ∀ ev ∈ rest, ev.isSubmission = true := by
  unfold runActivate readActivateReqFromFileOrStdin
  simp only [h1, h2]
  rw [if_neg hc]
  rcases hi : w.input with e | raw
  · exact ⟨[], rfl, by simp⟩
  · rcases hj : jsonUnmarshal raw none with e | spec
    · exact ⟨[], by simp [hj], by simp⟩
    · exact ⟨(submitActivate w ⟨spec⟩).1, by simp [hj], submitActivate_events w ⟨spec⟩⟩

/-- The shape of an interactive `runUpdate` without a file whose details fetch succeeds,
after the checks: the fetch, the builder on the fetched spec, then calls of the edit
loop and the submission step only. -/
theorem runUpdate_interactive_trace (m : updateManager) (w : World) (o : updateOptions)
    (spec : SpecMap) (h1 : w.serviceEnabled = none) (h2 : w.initResult = none)
    (hc : o.filePath = "" ∧ w.interactive = true) (hd : w.details = .ok spec) :
    ∃ rest, (runUpdate m w o).1
        = [.isServiceEnabled, .optionsInit, .integratedServiceDetails,
            .buildUpdateRequestInteractively ⟨spec⟩] ++ rest ∧
      ∀ ev ∈ rest, ev.isEditLoop = true ∨ ev.isSubmission = true := by
  unfold runUpdate
  simp only [h1, h2, hd]
  rw [if_pos hc]
  rcases hb : m.BuildUpdateRequestInteractively ⟨spec⟩ with e | request
  · exact ⟨[], rfl, by simp⟩
  · have he := showUpdateEditor_events m w request
    rcases hs : showUpdateEditor m w request with ⟨evs, e | edited⟩
    · rw [hs] at he
      exact ⟨evs, by simp [hs], fun ev hev => Or.inl (he ev hev)⟩
    · rw [hs] at he
      refine ⟨evs ++ (submitUpdate w edited).1, by simp [hs], ?_⟩
      intro ev hev
      rcases List.mem_append.1 hev with hev | hev
      · exact Or.inl (he ev hev)
      · exact Or.inr (submitUpdate_events w edited ev hev)

/-- An interactive `runUpdate` without a file whose details fetch fails stops there. -/
theorem runUpdate_fetch_failure (m : updateManager) (w : World) (o : updateOptions)
    (e : GoError) (h1 : w.serviceEnabled = none) (h2 : w.initResult = none)
    (hc : o.filePath = "" ∧ w.interactive = true) (hd : w.details = .error e) :
    runUpdate m w o = ([.isServiceEnabled, .optionsInit, .integratedServiceDetails],
      .returned (some ("failed to get service details: " ++ e))) := by
  unfold runUpdate
  simp only [h1, h2, hd]
  rw [if_pos hc]
  rfl

/-- The shape of a `runUpdate` on the file / standard input path, after the checks: the
reader, then calls of the submission step only. -/
theorem runUpdate_file_trace (m : updateManager) (w : World) (o : updateOptions)
    (h1 : w.serviceEnabled = none) (h2 : w.initResult = none)
    (hc : ¬ (o.filePath = "" ∧ w.interactive = true)) :
    ∃ rest, (runUpdate m w o).1
        = [.isServiceEnabled, .optionsInit, .readFileOrStdin o.filePath] ++ rest ∧
      ∀ ev ∈ rest, ev.isSubmission = true := by
  unfold runUpdate readUpdateReqFromFileOrStdin
  simp only [h1, h2]
  rw [if_neg hc]
  rcases hi : w.input with e | raw
  · exact ⟨[], rfl, by simp⟩
  · rcases hj : jsonUnmarshal raw none with e | spec
    · exact ⟨[], by simp [hj], by simp⟩
    · exact ⟨(submitUpdate w ⟨spec⟩).1, by simp [hj], submitUpdate_events w ⟨spec⟩⟩

/-- Calls of the edit loop and of the submission step are no builder and no reader
calls. -/
theorem countP_tail (l : List Event)
    (h : ∀ ev ∈ l, ev.isEditLoop = true ∨ ev.isSubmission = true) :
    l.countP Event.isBuilder = 0 ∧ l.countP Event.isReader = 0 := by
  constructor <;> rw [List.countP_eq_zero] <;> intro ev hev <;>
    have := h ev hev <;> cases ev <;>
    simp_all [Event.isEditLoop, Event.isSubmission, Event.isBuilder, Event.isReader]

/-- C8 (counterexample): an interactive `runUpdate` without a file passes the
prerequisite check and the option initialisation, the details fetch fails, and the run
ends with neither the interactive builder nor the reader executed. -/
theorem C8_neither_builder_nor_reader_runs :
    fetchFailureWorld.serviceEnabled = none ∧ fetchFailureWorld.initResult = none ∧
    fetchFailureWorld.interactive = true ∧
    runUpdate replicasUpdateManager fetchFailureWorld ⟨""⟩
      = ([.isServiceEnabled, .optionsInit, .integratedServiceDetails],
          .returned (some "failed to get service details: not found")) ∧
    (runUpdate replicasUpdateManager fetchFailureWorld ⟨""⟩).1.countP Event.isBuilder = 0 ∧
    (runUpdate replicasUpdateManager fetchFailureWorld ⟨""⟩).1.countP Event.isReader = 0 := by
  refine ⟨rfl, rfl, rfl, rfl, by decide, by decide⟩

/-- C8 (amended): in a run that passes the prerequisite check and the option
initialisation, the reader executes exactly once when the file path is not empty or the
session is not interactive, and not at all otherwise; the builder of `runActivate`
executes exactly once when the file path is empty and the session interactive, and not
at all otherwise; the builder of `runUpdate` executes exactly once when the file path is
empty, the session interactive and the details fetch succeeds, and not at all
otherwise. So never both, and exactly one of the two except in a `runUpdate` whose
details fetch fails. -/
theorem C8_builder_or_reader (ma : activateManager) (mu : updateManager) (w : World)
    (oa : activateOptions) (ou : updateOptions)
    (h1 : w.serviceEnabled = none) (h2 : w.initResult = none) :
    (runActivate ma w oa).1.countP Event.isBuilder
      = (if oa.filePath = "" ∧ w.interactive = true then 1 else 0) ∧
    (runActivate ma w oa).1.countP Event.isReader
      = (if oa.filePath = "" ∧ w.interactive = true then 0 else 1) ∧
    (runUpdate mu w ou).1.countP Event.isBuilder
      = (if ou.filePath = "" ∧ w.interactive = true ∧ w.details.isOk = true then 1 else 0) ∧
    (runUpdate mu w ou).1.countP Event.isReader
      = (if ou.filePath = "" ∧ w.interactive = true then 0 else 1) := by
  have hA : (runActivate ma w oa).1.countP Event.isBuilder
        = (if oa.filePath = "" ∧ w.interactive = true then 1 else 0) ∧
      (runActivate ma w oa).1.countP Event.isReader
        = (if oa.filePath = "" ∧ w.interactive = true then 0 else 1) := by
    by_cases hc : oa.filePath = "" ∧ w.interactive = true
    · obtain ⟨rest, hr, hrest⟩ := runActivate_interactive_trace ma w oa h1 h2 hc
      have ht := countP_tail rest hrest
      rw [hr, if_pos hc, if_pos hc]
      simp [List.countP_cons, Event.isBuilder, Event.isReader, ht.1, ht.2]
    · obtain ⟨rest, hr, hrest⟩ := runActivate_file_trace ma w oa h1 h2 hc
      have ht := countP_tail rest (fun ev hev => Or.inr (hrest ev hev))
      rw [hr, if_neg hc, if_neg hc]
      simp [List.countP_cons, Event.isBuilder, Event.isReader, ht.1, ht.2]
  have hU : (runUpdate mu w ou).1.countP Event.isBuilder
        = (if ou.filePath = "" ∧ w.interactive = true ∧ w.details.isOk = true then 1 else 0) ∧
      (runUpdate mu w ou).1.countP Event.isReader
        = (if ou.filePath = "" ∧ w.interactive = true then 0 else 1) := by
    by_cases hc : ou.filePath = "" ∧ w.interactive = true
    · rcases hd : w.details with e | spec
      · rw [runUpdate_fetch_failure mu w ou e h1 h2 hc hd, if_pos hc]
        simp [List.countP_cons, Event.isBuilder, Event.isReader, Except.isOk, Except.toBool]
      · obtain ⟨rest, hr, hrest⟩ := runUpdate_interactive_trace mu w ou spec h1 h2 hc hd
        have ht := countP_tail rest hrest
        rw [hr, if_pos hc]
        simp [List.countP_cons, Event.isBuilder, Event.isReader, ht.1, ht.2, hc.1, hc.2,
          Except.isOk, Except.toBool]
    · obtain ⟨rest, hr, hrest⟩ := runUpdate_file_trace mu w ou h1 h2 hc
      have ht := countP_tail rest (fun ev hev => Or.inr (hrest ev hev))
      have hc' : ¬ (ou.filePath = "" ∧ w.interactive = true ∧ w.details.isOk = true) :=
        fun h => hc ⟨h.1, h.2.1⟩
      rw [hr, if_neg hc, if_neg hc']
      simp [List.countP_cons, Event.isBuilder, Event.isReader, ht.1, ht.2]
  exact ⟨hA.1, hA.2, hU.1, hU.2⟩

/-- Witness of C8: an interactive session without a file in which the operator declines
the edit: the builder runs once and the reader does not. -/
theorem C8_builder_or_reader_witness :
    (sessionWorld false [] .invalid none).serviceEnabled = none ∧
    (sessionWorld false [] .invalid none).initResult = none ∧
    (runActivate (replicasActivateManager none) (sessionWorld false [] .invalid none)
        ⟨""⟩).1.countP Event.isBuilder = 1 ∧
    (runUpdate replicasUpdateManager (sessionWorld false [] .invalid none)
        ⟨""⟩).1.countP Event.isReader = 0 :=
  ⟨rfl, rfl,
    (C8_builder_or_reader (replicasActivateManager none) replicasUpdateManager
      (sessionWorld false [] .invalid none) ⟨""⟩ ⟨""⟩ rfl rfl).1,
    (C8_builder_or_reader (replicasActivateManager none) replicasUpdateManager
      (sessionWorld false [] .invalid none) ⟨""⟩ ⟨""⟩ rfl rfl).2.2.2⟩

/-- C9: in an interactive `runUpdate` without a file, after the checks, the run starts
with the details fetch, then hands the builder a request whose `Spec` is the fetched
one, and only then come the calls of the edit loop and of the submission step; when the
fetch fails the run returns an error right after it, with no builder, no edit loop and
no `UpdateIntegratedService`. -/
theorem C9_update_seeded_from_details (m : updateManager) (w : World) (o : updateOptions)
    (h1 : w.serviceEnabled = none) (h2 : w.initResult = none)
    (h3 : o.filePath = "") (h4 : w.interactive = true) :
    (∀ spec, w.details = .ok spec →
      ∃ rest, (runUpdate m w o).1
          = [.isServiceEnabled, .optionsInit, .integratedServiceDetails,
              .buildUpdateRequestInteractively ⟨spec⟩] ++ rest ∧
        ∀ ev ∈ rest, ev.isEditLoop = true ∨ ev.isSubmission = true) ∧
    (∀ e, w.details = .error e →
      runUpdate m w o = ([.isServiceEnabled, .optionsInit, .integratedServiceDetails],
        .returned (some ("failed to get service details: " ++ e)))) :=
  ⟨fun spec hd => runUpdate_interactive_trace m w o spec h1 h2 ⟨h3, h4⟩ hd,
    fun e hd => runUpdate_fetch_failure m w o e h1 h2 ⟨h3, h4⟩ hd⟩

/-- Witness of C9: the remote side holds `replicas = 3`, the operator declines the edit;
and the session in which the fetch fails. -/
theorem C9_update_seeded_from_details_witness :
    (sessionWorld false [] .invalid (some [("replicas", .number 3)])).serviceEnabled = none ∧
    (sessionWorld false [] .invalid (some [("replicas", .number 3)])).initResult = none ∧
    (updateOptions.mk "").filePath = "" ∧
    (sessionWorld false [] .invalid (some [("replicas", .number 3)])).interactive = true ∧
    ∃ rest, (runUpdate replicasUpdateManager
        (sessionWorld false [] .invalid (some [("replicas", .number 3)])) ⟨""⟩).1
          = [.isServiceEnabled, .optionsInit, .integratedServiceDetails,
              .buildUpdateRequestInteractively ⟨some [("replicas", .number 3)]⟩] ++ rest ∧
        ∀ ev ∈ rest, ev.isEditLoop = true ∨ ev.isSubmission = true :=
  ⟨rfl, rfl, rfl, rfl,
    (C9_update_seeded_from_details replicasUpdateManager
      (sessionWorld false [] .invalid (some [("replicas", .number 3)])) ⟨""⟩
      rfl rfl rfl rfl).1 _ rfl⟩

/-- C10 (counterexample): the remote side answers with status `500 Internal Server Error`
and a body that does not decode as `CommonError`; the description of the returned error
is the message of the decode error, not the HTTP status text. -/
theorem C10_description_is_not_status_text :
    (plainTextClient.callAPI "request").1.map HttpResponse.Status
      = some "500 Internal Server Error" ∧
    (ApiV1OrgsOrgidClustergroupsClusterGroupIdDeploymentsDeploymentNameDelete
        plainTextClient "").2.2.map ApiError.Error = some "undefined response type" ∧
    (ApiV1OrgsOrgidClustergroupsClusterGroupIdDeploymentsPost
        plainTextClient "").2.2.map ApiError.Error = some "undefined response type" ∧
    (ApiV1OrgsOrgidClustergroupsClusterGroupIdDeploymentsDeploymentNameDelete
        plainTextClient "").2.2.map ApiError.Error ≠ some "500 Internal Server Error" := by
  refine ⟨rfl, rfl, rfl, ?_⟩
  decide

/-- C10 (amended): for a response with status code >= 300 whose body does not decode as
`CommonError`, the operation returns the zero value, the response, and a
`GenericOpenAPIError` that holds the raw body, no model, and as description the message
of the decode error. -/
theorem C10_undecodable_error_body {α : Type} (a : ApiClient α) (zero : α) (r : String)
    (resp : HttpResponse) (body : String) (v : CommonError) (e : GoError)
    (hp : a.prepareRequest = .ok r) (hc : a.callAPI r = (some resp, none))
    (hb : resp.Body = .ok body) (hs : resp.StatusCode ≥ 300)
    (hd : a.decodeError body resp.ContentType = (v, some e)) :
    ApiV1OrgsOrgidClustergroupsClusterGroupIdDeploymentsDeploymentNameDelete a zero
      = (zero, some resp, some (.openAPI ⟨body, e, none⟩)) ∧
    ApiV1OrgsOrgidClustergroupsClusterGroupIdDeploymentsPost a zero
      = (zero, some resp, some (.openAPI ⟨body, e, none⟩)) ∧
    ApiError.Error (.openAPI ⟨body, e, none⟩) = e := by
  simp [ApiV1OrgsOrgidClustergroupsClusterGroupIdDeploymentsDeploymentNameDelete,
    ApiV1OrgsOrgidClustergroupsClusterGroupIdDeploymentsPost, invoke, hp, hc, hb, hs, hd,
    ApiError.Error]

/-- Witness of C10: the client whose remote side answers 500 with a plain-text body. -/
theorem C10_undecodable_error_body_witness :
    plainTextClient.prepareRequest = .ok "request" ∧
    ApiV1OrgsOrgidClustergroupsClusterGroupIdDeploymentsDeploymentNameDelete plainTextClient ""
      = ("", some ⟨500, "500 Internal Server Error", "text/plain", "request", .ok "oops"⟩,
          some (.openAPI ⟨"oops", "undefined response type", none⟩)) :=
  ⟨rfl, (C10_undecodable_error_body plainTextClient "" "request"
    ⟨500, "500 Internal Server Error", "text/plain", "request", .ok "oops"⟩ "oops" default
    "undefined response type" rfl rfl rfl (by decide) rfl).1⟩

/-- C11: for a response with status code >= 300 whose body decodes as `CommonError`, the
operation returns the zero value, the response, and a `GenericOpenAPIError` whose model
is the decoded `CommonError`, whose body is the raw response body and whose description
is the HTTP status text. -/
theorem C11_decoded_error_body {α : Type} (a : ApiClient α) (zero : α) (r : String)
    (resp : HttpResponse) (body : String) (v : CommonError)
    (hp : a.prepareRequest = .ok r) (hc : a.callAPI r = (some resp, none))
    (hb : resp.Body = .ok body) (hs : resp.StatusCode ≥ 300)
    (hd : a.decodeError body resp.ContentType = (v, none)) :
    ApiV1OrgsOrgidClustergroupsClusterGroupIdDeploymentsDeploymentNamePut a zero
      = (zero, some resp, some (.openAPI ⟨body, resp.Status, some v⟩)) ∧
    ApiV1OrgsOrgidClustergroupsClusterGroupIdDeploymentsDeploymentNameDelete a zero
      = (zero, some resp, some (.openAPI ⟨body, resp.Status, some v⟩)) ∧
    ApiV1OrgsOrgidClustergroupsClusterGroupIdDeploymentsDeploymentNameGet a zero
      = (zero, some resp, some (.openAPI ⟨body, resp.Status, some v⟩)) ∧
    ApiV1OrgsOrgidClustergroupsClusterGroupIdDeploymentsDeploymentNameSyncPut a zero
      = (zero, some resp, some (.openAPI ⟨body, resp.Status, some v⟩)) ∧
    ApiV1OrgsOrgidClustergroupsClusterGroupIdDeploymentsGet a zero
      = (zero, some resp, some (.openAPI ⟨body, resp.Status, some v⟩)) ∧
    ApiV1OrgsOrgidClustergroupsClusterGroupIdDeploymentsPost a zero
      = (zero, some resp, some (.openAPI ⟨body, resp.Status, some v⟩)) := by
  simp [ApiV1OrgsOrgidClustergroupsClusterGroupIdDeploymentsDeploymentNamePut,
    ApiV1OrgsOrgidClustergroupsClusterGroupIdDeploymentsDeploymentNameDelete,
    ApiV1OrgsOrgidClustergroupsClusterGroupIdDeploymentsDeploymentNameGet,
    ApiV1OrgsOrgidClustergroupsClusterGroupIdDeploymentsDeploymentNameSyncPut,
    ApiV1OrgsOrgidClustergroupsClusterGroupIdDeploymentsGet,
    ApiV1OrgsOrgidClustergroupsClusterGroupIdDeploymentsPost, invoke, hp, hc, hb, hs, hd]

/-- Witness of C11: the remote side answers 409 with the message `already active`; the
returned error carries that message in its model. -/
theorem C11_decoded_error_body_witness :
    conflictClient.prepareRequest = .ok "request" ∧
    ApiV1OrgsOrgidClustergroupsClusterGroupIdDeploymentsDeploymentNamePut conflictClient ""
      = ("", some ⟨409, "409 Conflict", "application/json", "request",
              .ok "\x7b\"message\":\"already active\"\x7d"⟩,
          some (.openAPI ⟨"\x7b\"message\":\"already active\"\x7d", "409 Conflict",
            some ⟨0, "already active", ""⟩⟩)) :=
  ⟨rfl, (C11_decoded_error_body conflictClient "" "request"
    ⟨409, "409 Conflict", "application/json", "request",
      .ok "\x7b\"message\":\"already active\"\x7d"⟩
    "\x7b\"message\":\"already active\"\x7d" ⟨0, "already active", ""⟩
    rfl rfl rfl (by decide) rfl).1⟩

/-- C12 (counterexample): the remote side answers with status 101, which is not 2xx, and
a body that decodes; the operations return a nil error and the decoded value. -/
theorem C12_nil_error_without_2xx :
    (switchingClient.callAPI "request").1.map HttpResponse.StatusCode = some 101 ∧
    (ApiV1OrgsOrgidClustergroupsClusterGroupIdDeploymentsDeploymentNameDelete
        switchingClient "").2.2 = none ∧
    (ApiV1OrgsOrgidClustergroupsClusterGroupIdDeploymentsDeploymentNameGet
        switchingClient "").2.2 = none ∧
    (ApiV1OrgsOrgidClustergroupsClusterGroupIdDeploymentsDeploymentNameGet
        switchingClient "").1 = "ok" := by
  refine ⟨rfl, rfl, rfl, rfl⟩

/-- C12 (amended): for a response that `callAPI` returns, the operation returns a nil
error if and only if `callAPI` returned no error with it, the status code is below 300,
the body can be read and it decodes into the return type; in that case the returned
value is the decoded body. -/
theorem C12_nil_error_iff {α : Type} (a : ApiClient α) (zero : α) (r : String)
    (resp : HttpResponse) (cerr : Option GoError)
    (hp : a.prepareRequest = .ok r) (hc : a.callAPI r = (some resp, cerr)) :
    ((ApiV1OrgsOrgidClustergroupsClusterGroupIdDeploymentsDeploymentNameDelete a zero).2.2 = none ↔
      cerr = none ∧ resp.StatusCode < 300 ∧
        ∃ body, resp.Body = .ok body ∧ (a.decodeValue zero body resp.ContentType).2 = none) ∧
    ((ApiV1OrgsOrgidClustergroupsClusterGroupIdDeploymentsDeploymentNameGet a zero).2.2 = none ↔
      cerr = none ∧ resp.StatusCode < 300 ∧
        ∃ body, resp.Body = .ok body ∧ (a.decodeValue zero body resp.ContentType).2 = none) ∧
    (∀ body, cerr = none → resp.StatusCode < 300 → resp.Body = .ok body →
      (a.decodeValue zero body resp.ContentType).2 = none →
      ApiV1OrgsOrgidClustergroupsClusterGroupIdDeploymentsDeploymentNameDelete a zero
        = ((a.decodeValue zero body resp.ContentType).1, some resp, none) ∧
      ApiV1OrgsOrgidClustergroupsClusterGroupIdDeploymentsDeploymentNameGet a zero
        = ((a.decodeValue zero body resp.ContentType).1, some resp, none)) := by
  have key : (invoke a zero).2.2 = none ↔
      cerr = none ∧ resp.StatusCode < 300 ∧
        ∃ body, resp.Body = .ok body ∧ (a.decodeValue zero body resp.ContentType).2 = none := by
    unfold invoke
    rcases cerr with _ | e
    · rcases hb : resp.Body with e | body
      · simp [hp, hc, hb]
      · by_cases hs : resp.StatusCode ≥ 300
        · have hs' : ¬ resp.StatusCode < 300 := by omega
          rcases hd : a.decodeError body resp.ContentType with ⟨v, _ | e⟩ <;>
            simp [hp, hc, hb, hs, hs', hd]
        · have hs' : resp.StatusCode < 300 := by omega
          rcases hd : a.decodeValue zero body resp.ContentType with ⟨v, _ | e⟩ <;>
            simp [hp, hc, hb, hs, hs', hd]
    · simp [hp, hc]
  refine ⟨key, key, ?_⟩
  intro body h1 h2 h3 h4
  have hs : ¬ resp.StatusCode ≥ 300 := by omega
  subst h1
  rcases hd : a.decodeValue zero body resp.ContentType with ⟨v, _ | e⟩
  · simp [ApiV1OrgsOrgidClustergroupsClusterGroupIdDeploymentsDeploymentNameDelete,
      ApiV1OrgsOrgidClustergroupsClusterGroupIdDeploymentsDeploymentNameGet, invoke,
      hp, hc, h3, hs, hd]
  · simp [hd] at h4

/-- Witness of C12: the remote side answers 409; the error is not nil. -/
theorem C12_nil_error_iff_witness :
    conflictClient.prepareRequest = .ok "request" ∧
    ((ApiV1OrgsOrgidClustergroupsClusterGroupIdDeploymentsDeploymentNameDelete
        conflictClient "").2.2 = none ↔
      (none : Option GoError) = none ∧ (409 : Int) < 300 ∧
        ∃ body, (Except.ok "\x7b\"message\":\"already active\"\x7d" : Except GoError String)
            = .ok body ∧
          (conflictClient.decodeValue "" body "application/json").2 = none) :=
  ⟨rfl, (C12_nil_error_iff conflictClient "" "request"
    ⟨409, "409 Conflict", "application/json", "request",
      .ok "\x7b\"message\":\"already active\"\x7d"⟩ none rfl rfl).1⟩

/-- C13: when `prepareRequest`, `callAPI` or the read of the response body fails with an
error, the operation returns that very error and the zero value, whatever `decode`
would do: with no response after `prepareRequest`, with the response `callAPI` gave
otherwise. -/
theorem C13_transport_error_handed_on {α : Type} (a : ApiClient α) (zero : α) :
    (∀ e, a.prepareRequest = .error e →
      ApiV1OrgsOrgidClustergroupsClusterGroupIdDeploymentsDeploymentNameDelete a zero
        = (zero, none, some (.plain e)) ∧
      ApiV1OrgsOrgidClustergroupsClusterGroupIdDeploymentsGet a zero
        = (zero, none, some (.plain e))) ∧
    (∀ r resp e, a.prepareRequest = .ok r → a.callAPI r = (resp, some e) →
      ApiV1OrgsOrgidClustergroupsClusterGroupIdDeploymentsDeploymentNameDelete a zero
        = (zero, resp, some (.plain e)) ∧
      ApiV1OrgsOrgidClustergroupsClusterGroupIdDeploymentsGet a zero
        = (zero, resp, some (.plain e))) ∧
    (∀ r resp e, a.prepareRequest = .ok r → a.callAPI r = (some resp, none) →
      resp.Body = .error e →
      ApiV1OrgsOrgidClustergroupsClusterGroupIdDeploymentsDeploymentNameDelete a zero
        = (zero, some resp, some (.plain e)) ∧
      ApiV1OrgsOrgidClustergroupsClusterGroupIdDeploymentsGet a zero
        = (zero, some resp, some (.plain e))) := by
  refine ⟨?_, ?_, ?_⟩
  · intro e h
    simp [ApiV1OrgsOrgidClustergroupsClusterGroupIdDeploymentsDeploymentNameDelete,
      ApiV1OrgsOrgidClustergroupsClusterGroupIdDeploymentsGet, invoke, h]
  · intro r resp e h1 h2
    simp [ApiV1OrgsOrgidClustergroupsClusterGroupIdDeploymentsDeploymentNameDelete,
      ApiV1OrgsOrgidClustergroupsClusterGroupIdDeploymentsGet, invoke, h1, h2]
  · intro r resp e h1 h2 h3
    simp [ApiV1OrgsOrgidClustergroupsClusterGroupIdDeploymentsDeploymentNameDelete,
      ApiV1OrgsOrgidClustergroupsClusterGroupIdDeploymentsGet, invoke, h1, h2, h3]

/-- Witness of C13: the remote side cannot be reached. -/
theorem C13_transport_error_handed_on_witness :
    unreachableClient.prepareRequest = .ok "request" ∧
    unreachableClient.callAPI "request" = (none, some "dial tcp: connection refused") ∧
    ApiV1OrgsOrgidClustergroupsClusterGroupIdDeploymentsDeploymentNameDelete unreachableClient ""
      = ("", none, some (.plain "dial tcp: connection refused")) :=
  ⟨rfl, rfl, ((C13_transport_error_handed_on unreachableClient "").2.1
    "request" none "dial tcp: connection refused" rfl rfl).1⟩

/-- C14 (code defect): the spec says that on a failed API call the value logged for
diagnosis is the submitted request document. `runActivate` does log the document;
`runUpdate`, on the same input and with the response of the failed call at hand, hands
`cli.LogAPIError` the HTTP request of that response instead of the document. -/
theorem C14_update_logs_http_request :
    runActivate (replicasActivateManager none)
        (apiFailureWorld (replicasDoc 3)
          (some ⟨409, "409 Conflict", "application/json", "PUT request", .ok ""⟩) "409 Conflict")
        ⟨"req.json"⟩
      = ([.isServiceEnabled, .optionsInit, .readFileOrStdin "req.json",
          .activateIntegratedService ⟨some [("replicas", .number 3)]⟩,
          .logAPIError (.activateRequest ⟨some [("replicas", .number 3)]⟩)], .fatal) ∧
    runUpdate replicasUpdateManager
        (apiFailureWorld (replicasDoc 3)
          (some ⟨409, "409 Conflict", "application/json", "PUT request", .ok ""⟩) "409 Conflict")
        ⟨"req.json"⟩
      = ([.isServiceEnabled, .optionsInit, .readFileOrStdin "req.json",
          .updateIntegratedService ⟨some [("replicas", .number 3)]⟩,
          .logAPIError (.httpRequest "PUT request")], .fatal) := by
  refine ⟨rfl, rfl⟩

/-- C15: on the file / standard input path, after the checks, when the read fails or
what was read does not parse as a request, `runActivate` and `runUpdate` return a
non-nil error, and the one read is the only further call: no second read, no API
call. -/
theorem C15_unreadable_input_stops_run (ma : activateManager) (mu : updateManager) (w : World)
    (oa : activateOptions) (ou : updateOptions)
    (h1 : w.serviceEnabled = none) (h2 : w.initResult = none)
    (ha : ¬ (oa.filePath = "" ∧ w.interactive = true))
    (hu : ¬ (ou.filePath = "" ∧ w.interactive = true))
    (hin : (∃ e, w.input = .error e) ∨ ∃ t e, w.input = .ok t ∧ jsonUnmarshal t none = .error e) :
    (∃ e, runActivate ma w oa
      = ([.isServiceEnabled, .optionsInit, .readFileOrStdin oa.filePath], .returned (some e))) ∧
    (∃ e, runUpdate mu w ou
      = ([.isServiceEnabled, .optionsInit, .readFileOrStdin ou.filePath], .returned (some e))) := by
  constructor
  · unfold runActivate readActivateReqFromFileOrStdin
    simp only [h1, h2]
    rw [if_neg ha]
    rcases hin with ⟨e, he⟩ | ⟨t, e, ht, he⟩
    · exact ⟨_, by simp [he, wrapIf]; rfl⟩
    · exact ⟨_, by simp [ht, he, wrapIf]; rfl⟩
  · unfold runUpdate readUpdateReqFromFileOrStdin
    simp only [h1, h2]
    rw [if_neg hu]
    rcases hin with ⟨e, he⟩ | ⟨t, e, ht, he⟩
    · exact ⟨_, by simp [he, wrapIf]; rfl⟩
    · exact ⟨_, by simp [ht, he, wrapIf]; rfl⟩

/-- Witness of C15: the file does not hold JSON. -/
theorem C15_unreadable_input_stops_run_witness :
    (fileWorld (.ok .invalid)).serviceEnabled = none ∧
    (fileWorld (.ok .invalid)).initResult = none ∧
    ¬ ((activateOptions.mk "req.json").filePath = "" ∧
        (fileWorld (.ok .invalid)).interactive = true) ∧
    ((∃ e, (fileWorld (.ok .invalid)).input = .error e) ∨
      ∃ t e, (fileWorld (.ok .invalid)).input = .ok t ∧ jsonUnmarshal t none = .error e) ∧
    ∃ e, runActivate (replicasActivateManager none) (fileWorld (.ok .invalid)) ⟨"req.json"⟩
      = ([.isServiceEnabled, .optionsInit, .readFileOrStdin "req.json"], .returned (some e)) :=
  ⟨rfl, rfl, by decide, Or.inr ⟨.invalid, _, rfl, rfl⟩,
    (C15_unreadable_input_stops_run (replicasActivateManager none) replicasUpdateManager
      (fileWorld (.ok .invalid)) ⟨"req.json"⟩ ⟨"req.json"⟩ rfl rfl (by decide) (by decide)
      (Or.inr ⟨.invalid, _, rfl, rfl⟩)).1⟩

/-- C16: the two edit loops are one protocol. For a manager of both kinds (the same
`ValidateSpec`), the update validator and the activation validator agree on every text,
and on every answer of the operator and every initial document `showUpdateEditor`
makes the same calls as `showActivateEditor`, fails in the same cases with the same
error, and leaves the same document, the two request types being identified by their
`Spec`. -/
theorem C16_editors_agree (ma : activateManager) (mu : updateManager) (w : World)
    (r : ActivateIntegratedServiceRequest) (hv : mu.ValidateSpec = ma.ValidateSpec) :
    (∀ t, makeUpdateRequestValidator mu.tospecValidator t
      = makeActivationRequestValidator ma.tospecValidator t) ∧
    (showUpdateEditor mu w (toUpdateRequest r)).1 = (showActivateEditor ma w r).1 ∧
    (showUpdateEditor mu w (toUpdateRequest r)).2
      = (showActivateEditor ma w r).2.map toUpdateRequest := by
  have hval : makeUpdateRequestValidator mu.tospecValidator
      = makeActivationRequestValidator ma.tospecValidator := by
    funext t
    unfold makeUpdateRequestValidator makeActivationRequestValidator
    cases jsonUnmarshal t none <;> simp [hv]
  refine ⟨fun t => congrFun hval t, ?_, ?_⟩
  · unfold showUpdateEditor showActivateEditor
    rw [hval]
    rcases w.confirm with e | b
    · rfl
    · cases b
      · rfl
      · simp only [toUpdateRequest]
        cases jsonMarshalIndent r.Spec with
        | error e => rfl
        | ok content =>
          rcases askEditor (makeActivationRequestValidator ma.tospecValidator) w.saves
            with ⟨evs, e | result⟩
          · rfl
          · simp only
            cases jsonUnmarshal result r.Spec <;> rfl
  · unfold showUpdateEditor showActivateEditor
    rw [hval]
    rcases w.confirm with e | b
    · rfl
    · cases b
      · rfl
      · simp only [toUpdateRequest]
        cases jsonMarshalIndent r.Spec with
        | error e => rfl
        | ok content =>
          rcases askEditor (makeActivationRequestValidator ma.tospecValidator) w.saves
            with ⟨evs, e | result⟩
          · rfl
          · simp only
            cases jsonUnmarshal result r.Spec <;> rfl

/-- Witness of C16: the operator first saves `replicas = -1`, then `replicas = 1`. -/
theorem C16_editors_agree_witness :
    replicasUpdateManager.ValidateSpec = (replicasActivateManager none).ValidateSpec ∧
    (showUpdateEditor replicasUpdateManager
        (sessionWorld true [replicasDoc (-1), replicasDoc 1] .invalid none)
        (toUpdateRequest ⟨some [("replicas", .number 3)]⟩)).2
      = (showActivateEditor (replicasActivateManager none)
          (sessionWorld true [replicasDoc (-1), replicasDoc 1] .invalid none)
          ⟨some [("replicas", .number 3)]⟩).2.map toUpdateRequest :=
  ⟨rfl, (C16_editors_agree (replicasActivateManager none) replicasUpdateManager
    (sessionWorld true [replicasDoc (-1), replicasDoc 1] .invalid none)
    ⟨some [("replicas", .number 3)]⟩ rfl).2.2⟩

/-- C17: the validators of `makeActivationRequestValidator` and
`makeUpdateRequestValidator` parse the text alone, into a fresh request: when it does
not parse they return the parse error wrapped as `request is not valid JSON` and do not
call `ValidateSpec`; when it parses they call `ValidateSpec` once, on the parsed `Spec`,
and return its result. So they return an error exactly when the text does not parse or
`ValidateSpec` rejects the parsed `Spec`. -/
theorem C17_validator_result (v : specValidator) (t : Text) :
    makeActivationRequestValidator v t
      = (match jsonUnmarshal t none with
         | .error e => ([], some ("request is not valid JSON: " ++ e))
         | .ok spec => ([.validateSpec spec], v.ValidateSpec spec)) ∧
    makeUpdateRequestValidator v t
      = (match jsonUnmarshal t none with
         | .error e => ([], some ("request is not valid JSON: " ++ e))
         | .ok spec => ([.validateSpec spec], v.ValidateSpec spec)) ∧
    ((makeActivationRequestValidator v t).2 ≠ none ↔
      (∃ e, jsonUnmarshal t none = .error e) ∨
        ∃ spec, jsonUnmarshal t none = .ok spec ∧ v.ValidateSpec spec ≠ none) ∧
    ((makeUpdateRequestValidator v t).2 ≠ none ↔
      (∃ e, jsonUnmarshal t none = .error e) ∨
        ∃ spec, jsonUnmarshal t none = .ok spec ∧ v.ValidateSpec spec ≠ none) := by
  unfold makeActivationRequestValidator makeUpdateRequestValidator
  simp only []
  split <;> simp_all [wrapIf]

/-- The two error messages of the editors start differently. -/
theorem survey_ne_unmarshal (e e' : String) :
    "failure during survey: " ++ e' ≠ "failed to unmarshal JSON as request: " ++ e := by
  intro h
  have h2 := congrArg (fun s : String => s.data.take 5) h
  simp only [String.data_append] at h2
  have h3 : ("failure during survey: ".data ++ e'.data).take 5 = ['f', 'a', 'i', 'l', 'u'] := rfl
  have h4 : ("failed to unmarshal JSON as request: ".data ++ e.data).take 5
      = ['f', 'a', 'i', 'l', 'e'] := rfl
  rw [h3, h4] at h2
  exact absurd h2 (by decide)


/-- The marshal and the unmarshal error messages of the editors differ. -/
theorem marshal_ne_unmarshal (e e' : String) :
    "failed to marshal request to JSON: " ++ e'
      ≠ "failed to unmarshal JSON as request: " ++ e := by
  intro h
  have h2 := congrArg (fun s : String => s.data.take 11) h
  simp only [String.data_append] at h2
  have h3 : ("failed to marshal request to JSON: ".data ++ e'.data).take 11
      = ['f', 'a', 'i', 'l', 'e', 'd', ' ', 't', 'o', ' ', 'm'] := rfl
  have h4 : ("failed to unmarshal JSON as request: ".data ++ e.data).take 11
      = ['f', 'a', 'i', 'l', 'e', 'd', ' ', 't', 'o', ' ', 'u'] := rfl
  rw [h3, h4] at h2
  exact absurd h2 (by decide)

/-- C18 (code defect): the path template spells the organization placeholder `orgid`
while the replacement looks for `orgId`, so for organization 17, cluster group 2 and
deployment `web` every operation sends its request to a path that still holds the
placeholder and does not hold the organization identifier. -/
theorem C18_orgid_placeholder_left :
    localVarPathDeploymentName "https://host/pipeline" 17 2 "web"
      = "https://host/pipeline/api/v1/orgs/{orgid}/clustergroups/2/deployments/web" ∧
    localVarPathDeploymentNameSync "https://host/pipeline" 17 2 "web"
      = "https://host/pipeline/api/v1/orgs/{orgid}/clustergroups/2/deployments/web/sync" ∧
    localVarPathDeployments "https://host/pipeline" 17 2
      = "https://host/pipeline/api/v1/orgs/{orgid}/clustergroups/2/deployments" ∧
    containsSubstr (localVarPathDeploymentName "https://host/pipeline" 17 2 "web") "17"
      = false := by
  refine ⟨by decide, by decide, by decide, by decide⟩

/-- A text that a request validator accepts parses into any request. -/
theorem jsonUnmarshal_ok_of_accepted (v : specValidator) (t : Text) (cur : SpecMap)
    (h : (makeActivationRequestValidator v t).2 = none ∨
      (makeUpdateRequestValidator v t).2 = none) :
    ∃ s, jsonUnmarshal t cur = .ok s := by
  cases hj : jsonUnmarshal t none with
  | error e =>
    rcases h with h | h
    · simp [makeActivationRequestValidator, hj, wrapIf] at h
    · simp [makeUpdateRequestValidator, hj, wrapIf] at h
  | ok s0 => exact jsonUnmarshal_ok_of_ok t none cur s0 hj

/-- C19: a text that the request validator accepts parses into every pre-edit request,
so the final parse of the editors cannot fail: `showActivateEditor` and
`showUpdateEditor` never return the error `failed to unmarshal JSON as request`. -/
theorem C19_final_parse_cannot_fail (ma : activateManager) (mu : updateManager) (w : World)
    (ra : ActivateIntegratedServiceRequest) (ru : UpdateIntegratedServiceRequest) :
    (∀ t, (makeActivationRequestValidator ma.tospecValidator t).2 = none →
      ∃ s, jsonUnmarshal t ra.Spec = .ok s) ∧
    (∀ t, (makeUpdateRequestValidator mu.tospecValidator t).2 = none →
      ∃ s, jsonUnmarshal t ru.Spec = .ok s) ∧
    (∀ e, (showActivateEditor ma w ra).2
      ≠ .error ("failed to unmarshal JSON as request: " ++ e)) ∧
    (∀ e, (showUpdateEditor mu w ru).2
      ≠ .error ("failed to unmarshal JSON as request: " ++ e)) := by
  refine ⟨fun t h => jsonUnmarshal_ok_of_accepted _ t _ (Or.inl h),
    fun t h => jsonUnmarshal_ok_of_accepted _ t _ (Or.inr h), ?_, ?_⟩
  · intro e
    unfold showActivateEditor
    rcases hc : w.confirm with e' | b
    · simp only [ne_eq, Except.error.injEq]
      exact survey_ne_unmarshal e e'
    · cases b
      · simp
      · cases hm : jsonMarshalIndent ra.Spec with
        | error e' =>
          simp only [ne_eq, Except.error.injEq]
          exact marshal_ne_unmarshal e e'
        | ok content =>
          rcases hq : askEditor (makeActivationRequestValidator ma.tospecValidator) w.saves
            with ⟨evs, e' | result⟩
          · simp only [ne_eq, Except.error.injEq]
            exact survey_ne_unmarshal e e'
          · have hok : (askEditor (makeActivationRequestValidator ma.tospecValidator) w.saves).2
                = .ok result := by rw [hq]
            obtain ⟨_, _, _, _, hacc⟩ := askEditor_ok _ result w.saves hok
            obtain ⟨s, hs⟩ := jsonUnmarshal_ok_of_accepted _ result ra.Spec (Or.inl hacc)
            simp [hs]
  · intro e
    unfold showUpdateEditor
    rcases hc : w.confirm with e' | b
    · simp only [ne_eq, Except.error.injEq]
      exact survey_ne_unmarshal e e'
    · cases b
      · simp
      · cases hm : jsonMarshalIndent ru.Spec with
        | error e' =>
          simp only [ne_eq, Except.error.injEq]
          exact marshal_ne_unmarshal e e'
        | ok content =>
          rcases hq : askEditor (makeUpdateRequestValidator mu.tospecValidator) w.saves
            with ⟨evs, e' | result⟩
          · simp only [ne_eq, Except.error.injEq]
            exact survey_ne_unmarshal e e'
          · have hok : (askEditor (makeUpdateRequestValidator mu.tospecValidator) w.saves).2
                = .ok result := by rw [hq]
            obtain ⟨_, _, _, _, hacc⟩ := askEditor_ok _ result w.saves hok
            obtain ⟨s, hs⟩ := jsonUnmarshal_ok_of_accepted _ result ru.Spec (Or.inr hacc)
            simp [hs]

/-- Witness of C19: the accepted text `replicas = 1` parses into the request that holds
`replicas = 3` and `debug = true`. -/
theorem C19_final_parse_cannot_fail_witness :
    (makeActivationRequestValidator (replicasActivateManager none).tospecValidator
      (replicasDoc 1)).2 = none ∧
    ∃ s, jsonUnmarshal (replicasDoc 1) (some [("replicas", .number 3), ("debug", .bool true)])
      = .ok s :=
  ⟨rfl, (C19_final_parse_cannot_fail (replicasActivateManager none) replicasUpdateManager
    (sessionWorld true [replicasDoc 1] .invalid none)
    ⟨some [("replicas", .number 3), ("debug", .bool true)]⟩ ⟨none⟩).1 (replicasDoc 1) rfl⟩

/-- C20 (code defect): `UpdateIntegratedService` fails without a response (the remote
side cannot be reached); the failure handling of `runUpdate` reads `resp.Request` of
the absent response and the run ends in a nil pointer dereference: nothing is logged
and the fatal termination is not reached. -/
theorem C20_update_failure_without_response :
    (apiFailureWorld (replicasDoc 3) none "dial tcp: connection refused").updateResult
      = (none, some "dial tcp: connection refused") ∧
    runUpdate replicasUpdateManager
        (apiFailureWorld (replicasDoc 3) none "dial tcp: connection refused") ⟨"req.json"⟩
      = ([.isServiceEnabled, .optionsInit, .readFileOrStdin "req.json",
          .updateIntegratedService ⟨some [("replicas", .number 3)]⟩], .panic) := by
  refine ⟨rfl, rfl⟩

end BanzaiCli
